import Mathlib

/-!
# Verification of the Confluence "Output" stage (SWOT-Confluence/output)

A shallow embedding of the module-to-archive aggregation logic of the
Output stage: per-module result readers (`get_module_data`), the shared
fill/normalization routine (`AbstractModule.write_var`), the node-count
mismatch exception tables (`__insert_nx`), the ragged-array companion
index writing (`Sic4dvar.append_module_data`), and the version stamping
(`Append.create_new_version` in both generations plus `Upload`).

NetCDF scalar cells are modelled by `V` (a rational number or NaN,
matching the code's uniform `.filled(np.nan)` convention); NetCDF files
on disk are modelled as association lists from reach identifier to file
content, with `Option` marking files that appear in the directory
listing but fail to open.
-/

namespace SoS

/-- A scalar cell of an in-memory result array.  The readers convert every
masked (missing) source value to `np.nan` via `.filled(np.nan)`, so a cell
is either NaN or an actual (rational) number. -/
inductive V where
  | nan : V
  | num : ℚ → V
deriving DecidableEq, Repr

/-- NetCDF type strings used by `AbstractModule.write_var` ("f8", "i4", "S1"). -/
inductive NCType where
  | f8 | i4 | S1
deriving DecidableEq, Repr

/-- A fill value is numeric for "f8"/"i4" and a string for "S1". -/
inductive FillVal where
  | num : ℚ → FillVal
  | str : String → FillVal
deriving DecidableEq, Repr

/-- Model of `AbstractModule.FILL` (AbstractModule.py lines 42-46):
`{"f8": -999999999999, "i4": -999, "S1": "x"}`. -/
def FILL : NCType → FillVal
  | .f8 => .num (-999999999999)
  | .i4 => .num (-999)
  | .S1 => .str "x"

/-- The numeric value of a fill constant (defined for "f8" and "i4"). -/
def FillVal.q : FillVal → ℚ
  | .num v => v
  | .str _ => 0

/-- Model of `np.nan_to_num(x, nan=fill)` on one cell: NaN becomes the fill number,
every other value is unchanged. -/
def nanToNum (fill : ℚ) : V → V
  | .nan => .num fill
  | .num q => .num q

/-- The data transformation of `AbstractModule.write_var` (AbstractModule.py
lines 159-181) on a one-dimensional variable: for type "f8" or "i4" the
array is written through `np.nan_to_num(data, nan=FILL[type])`, otherwise
the data is written unchanged. -/
def writeVarData (t : NCType) (data : List V) : List V :=
  if t = .f8 ∨ t = .i4 then data.map (nanToNum (FILL t).q) else data

/-- Model of `AbstractModule.write_var` on a two-dimensional variable (e.g. a
`(num_reaches, time_steps)` discharge array): `np.nan_to_num` applies
elementwise. -/
def writeVarData2 (t : NCType) (data : List (List V)) : List (List V) :=
  if t = .f8 ∨ t = .i4 then data.map (fun row => row.map (nanToNum (FILL t).q)) else data

theorem nanToNum_ne_nan (fill : ℚ) (x : V) : nanToNum fill x ≠ V.nan := by
  cases x <;> simp [nanToNum]

theorem writeVarData_getElem (t : NCType) (ht : t = .f8 ∨ t = .i4)
    (data : List V) (i : Nat) :
    (writeVarData t data)[i]? = (data[i]?).map (nanToNum (FILL t).q) := by
  simp [writeVarData, ht]

theorem writeVarData2_getElem (t : NCType) (ht : t = .f8 ∨ t = .i4)
    (data : List (List V)) (i : Nat) :
    (writeVarData2 t data)[i]? = (data[i]?).map (fun row => row.map (nanToNum (FILL t).q)) := by
  simp [writeVarData2, ht]

/-- C10: For every variable written through the shared `write_var` routine with
type "f8" or "i4", every NaN element of the in-memory array is replaced by the
single shared fill constant for that type (`-999999999999` for "f8", `-999`
for "i4") and non-NaN elements pass through unchanged, so the written archive
variable contains no NaN for any input array. -/
theorem write_var_replaces_nan (t : NCType) (ht : t = .f8 ∨ t = .i4)
    (data : List V) :
    (FILL .f8 = .num (-999999999999) ∧ FILL .i4 = .num (-999)) ∧
    (∀ (i : Nat) (hi : i < data.length),
      (writeVarData t data)[i]? =
        some (match data[i] with
              | V.nan => V.num (FILL t).q
              | V.num v => V.num v)) ∧
    V.nan ∉ writeVarData t data := by
  refine ⟨⟨rfl, rfl⟩, ?_, ?_⟩
  · intro i hi
    rw [writeVarData_getElem t ht]
    rw [List.getElem?_eq_getElem hi]
    cases data[i] <;> rfl
  · intro hmem
    simp only [writeVarData, ht, if_pos, List.mem_map] at hmem
    rcases hmem with ⟨x, _, hx⟩
    exact nanToNum_ne_nan _ x hx

/-- Witness for C10: `write_var` on "f8" data `[nan, 5.5]` keeps `5.5` and
replaces the NaN by `-999999999999`. -/
theorem write_var_replaces_nan_witness :
    ((FILL .f8 = .num (-999999999999) ∧ FILL .i4 = .num (-999)) ∧
    (∀ (i : Nat) (hi : i < ([V.nan, V.num (11/2)] : List V).length),
      (writeVarData .f8 [V.nan, V.num (11/2)])[i]? =
        some (match ([V.nan, V.num (11/2)] : List V)[i] with
              | V.nan => V.num (FILL .f8).q
              | V.num v => V.num v)) ∧
    V.nan ∉ writeVarData .f8 [V.nan, V.num (11/2)]) :=
  write_var_replaces_nan .f8 (Or.inl rfl) [V.nan, V.num (11/2)]

/-- A HiVDI per-reach result file `{reach_id}_hivdi.nc` as read by
`Hivdi.get_module_data` (Hivdi.py lines 80-83): a `reach` group holding a
per-time-step discharge `Q` and scalars `A0`, `alpha`, `beta`, with masked
source values already converted to NaN by `.filled(np.nan)`. -/
structure HivdiFile where
  Q : List V
  A0 : V
  alpha : V
  beta : V
deriving DecidableEq, Repr

/-- The `hivdi` result directory: the glob listing as an association list from
the reach identifier parsed out of the file name to the file's content;
`none` in the second component models a listed file on which `Dataset(...)`
raises when opened. -/
abbrev HivdiDir := List (Int × Option HivdiFile)

/-- The in-memory HiVDI result record (`hv_dict["reach"]`). -/
structure HivdiDict where
  nt : Nat
  Q : List (List V)
  A0 : List V
  alpha : List V
  beta : List V
deriving DecidableEq, Repr

namespace Hivdi

/-- Model of `Hivdi.create_data_dict` (Hivdi.py lines 88-111): arrays sized to the
topology (`nr` = number of topology reaches) pre-filled with `np.nan`. -/
def create_data_dict (nr nt : Nat) : HivdiDict :=
  { nt := nt
    Q := List.replicate nr (List.replicate nt V.nan)
    A0 := List.replicate nr V.nan
    alpha := List.replicate nr V.nan
    beta := List.replicate nr V.nan }

/-- One iteration's writes in `Hivdi.get_module_data` (Hivdi.py lines 80-83):
the matching file's fields are copied into the arrays at the running topology
index (`Q[index, :]`, `A0[index]`, `alpha[index]`, `beta[index]`). -/
def insertReach (d : HivdiDict) (i : Nat) (f : HivdiFile) : HivdiDict :=
  { d with
    Q := d.Q.set i f.Q
    A0 := d.A0.set i f.A0
    alpha := d.alpha.set i f.alpha
    beta := d.beta.set i f.beta }

/-- The extraction loop of `Hivdi.get_module_data` (Hivdi.py lines 76-85):
walk the topology reach identifiers keeping a running index; when the reach
has a file in the listing, open it (propagating an open failure, which aborts
the loop — there is no try/except) and copy its fields at the index. -/
def read_loop (dir : HivdiDir) (rids : List Int) (d : HivdiDict) (i : Nat) :
    Except Unit HivdiDict :=
  match rids with
  | [] => .ok d
  | r :: rest =>
    match List.lookup r dir with
    | none => read_loop dir rest d (i+1)
    | some none => .error ()
    | some (some f) => read_loop dir rest (insertReach d i f) (i+1)

/-- Model of `Hivdi.get_module_data` (Hivdi.py lines 54-86): allocate the NaN-filled
record; when the listing is nonempty, read attributes from the first listed
file (an open failure there propagates) and run the extraction loop. -/
def get_module_data (dir : HivdiDir) (rids : List Int) (nt : Nat) :
    Except Unit HivdiDict :=
  let d := create_data_dict rids.length nt
  match dir with
  | [] => .ok d
  | (_, none) :: _ => .error ()
  | (_, some _) :: _ => read_loop dir rids d 0

theorem read_loop_ok (dir : HivdiDir) :
    ∀ (rids : List Int) (d : HivdiDict) (i : Nat),
    (∀ r ∈ rids, List.lookup r dir ≠ some none) →
    ∃ d', read_loop dir rids d i = .ok d' := by
  intro rids
  induction rids with
  | nil => intro d i _; exact ⟨d, rfl⟩
  | cons r rest ih =>
    intro d i hgood
    have hr := hgood r (List.mem_cons_self r rest)
    have hrest : ∀ x ∈ rest, List.lookup x dir ≠ some none :=
      fun x hx => hgood x (List.mem_cons_of_mem r hx)
    rw [read_loop]
    rcases hlk : List.lookup r dir with _ | of
    · exact ih d (i+1) hrest
    · rcases of with _ | f
      · exact absurd hlk hr
      · exact ih (insertReach d i f) (i+1) hrest

/-- Generic alignment property of the extraction loop, stated for one field
through a projection `F` compatible with `insertReach`. -/
theorem read_loop_field {α : Type} (dir : HivdiDir)
    (F : HivdiDict → List α) (upd : HivdiFile → α)
    (hF : ∀ d i f, F (insertReach d i f) = (F d).set i (upd f)) :
    ∀ (rids : List Int) (d : HivdiDict) (i : Nat) (d' : HivdiDict),
    (F d).length = i + rids.length →
    read_loop dir rids d i = .ok d' →
    (F d').length = (F d).length ∧
    (∀ k, k < i → (F d')[k]? = (F d)[k]?) ∧
    (∀ (j : Nat) (hj : j < rids.length),
      (∀ f, List.lookup rids[j] dir = some (some f) → (F d')[i+j]? = some (upd f)) ∧
      (List.lookup rids[j] dir = none → (F d')[i+j]? = (F d)[i+j]?)) := by
  intro rids
  induction rids with
  | nil =>
    intro d i d' _ hrun
    cases hrun
    exact ⟨rfl, fun _ _ => rfl, fun j hj => absurd hj (by simp)⟩
  | cons r rest ih =>
    intro d i d' hlen hrun
    rw [List.length_cons] at hlen
    rw [read_loop] at hrun
    rcases hlk : List.lookup r dir with _ | of
    · rw [hlk] at hrun
      have hlen' : (F d).length = (i+1) + rest.length := by omega
      obtain ⟨h1, h2, h3⟩ := ih d (i+1) d' hlen' hrun
      refine ⟨h1, fun k hk => h2 k (Nat.lt_succ_of_lt hk), ?_⟩
      intro j hj
      match j with
      | 0 =>
        constructor
        · intro f hf
          rw [List.getElem_cons_zero] at hf
          rw [hlk] at hf; cases hf
        · intro _
          rw [Nat.add_zero]
          exact h2 i (Nat.lt_succ_self i)
      | j' + 1 =>
        have hj' : j' < rest.length := Nat.lt_of_succ_lt_succ hj
        have := h3 j' hj'
        rw [List.getElem_cons_succ, show i + (j'+1) = (i+1) + j' from by omega]
        exact this
    · rcases of with _ | f
      · rw [hlk] at hrun; cases hrun
      · rw [hlk] at hrun
        have hset : (F (insertReach d i f)).length = (i+1) + rest.length := by
          rw [hF, List.length_set]; omega
        obtain ⟨h1, h2, h3⟩ := ih (insertReach d i f) (i+1) d' hset hrun
        have hilt : i < (F d).length := by omega
        have hlenF : (F d').length = (F d).length := by
          rw [h1, hF, List.length_set]
        refine ⟨hlenF, ?_, ?_⟩
        · intro k hk
          have := h2 k (Nat.lt_succ_of_lt hk)
          rw [this, hF, List.getElem?_set_ne (Nat.ne_of_gt hk)]
        · intro j hj
          match j with
          | 0 =>
            constructor
            · intro f₀ hf₀
              rw [List.getElem_cons_zero, hlk] at hf₀
              obtain rfl : f = f₀ := by
                injection hf₀ with h; injection h
              have := h2 i (Nat.lt_succ_self i)
              rw [Nat.add_zero, this, hF, List.getElem?_set_self hilt]
            · intro hnone
              rw [List.getElem_cons_zero, hlk] at hnone; cases hnone
          | j' + 1 =>
            have hj' : j' < rest.length := Nat.lt_of_succ_lt_succ hj
            obtain ⟨ha, hb⟩ := h3 j' hj'
            rw [List.getElem_cons_succ, show i + (j'+1) = (i+1) + j' from by omega]
            constructor
            · intro f₀ hf₀
              exact ha f₀ hf₀
            · intro hnone
              have := hb hnone
              rw [this, hF, List.getElem?_set_ne (by omega)]

/-- The `hivdi` group content written by `Hivdi.append_module_data`
(Hivdi.py lines 131-146): four variables created through
`AbstractModule.write_var` with type "f8" (creation order `Q`, `A0`,
`beta`, `alpha`). -/
structure Group where
  Q : List (List V)
  A0 : List V
  beta : List V
  alpha : List V
deriving DecidableEq, Repr

/-- Model of `Hivdi.append_module_data` (Hivdi.py lines 131-146) as the group content
it leaves in the archive: every variable's data passes through
`write_var`'s "f8" normalization. -/
def append_module_data (d : HivdiDict) : Group :=
  { Q := writeVarData2 .f8 d.Q
    A0 := writeVarData .f8 d.A0
    beta := writeVarData .f8 d.beta
    alpha := writeVarData .f8 d.alpha }

theorem read_loop_nil_dir (rids : List Int) (d : HivdiDict) (i : Nat) :
    read_loop [] rids d i = .ok d := by
  induction rids generalizing i with
  | nil => rfl
  | cons r rest ih => rw [read_loop]; exact ih (i+1)

/-- With every listed file readable, `get_module_data` runs the extraction
loop from the NaN-filled record. -/
theorem get_module_data_eq_loop (dir : HivdiDir) (rids : List Int) (nt : Nat)
    (hread : ∀ p ∈ dir, (p : Int × Option HivdiFile).2 ≠ none) :
    get_module_data dir rids nt =
      read_loop dir rids (create_data_dict rids.length nt) 0 := by
  match dir with
  | [] => exact (read_loop_nil_dir rids _ 0).symm
  | (r, none) :: rest => exact absurd rfl (hread (r, none) (List.mem_cons_self _ _))
  | (r, some f) :: rest => rfl

theorem lookup_ne_some_none (dir : HivdiDir)
    (hread : ∀ p ∈ dir, (p : Int × Option HivdiFile).2 ≠ none) (r : Int) :
    List.lookup r dir ≠ some none := by
  induction dir with
  | nil => intro h; simp [List.lookup] at h
  | cons p rest ih =>
    rcases p with ⟨k, v⟩
    intro h
    rw [List.lookup] at h
    cases hbeq : (r == k) with
    | false =>
      rw [hbeq] at h
      exact ih (fun q hq => hread q (List.mem_cons_of_mem _ hq)) h
    | true =>
      rw [hbeq] at h
      injection h with h2
      exact hread (k, v) (List.mem_cons_self _ _) h2

end Hivdi

/-- The example scenario's result file for reach 20: scalar field `A0 = 5.5`. -/
def exFile : HivdiFile :=
  { Q := [V.num 4], A0 := V.num (11/2), alpha := V.num 6, beta := V.num 7 }

/-- The example scenario's hivdi directory: a result file only for reach 20. -/
def exDir : HivdiDir := [((20 : Int), some exFile)]

/-- C1: For every topology reach that has a matching HiVDI result file, the
reader writes that file's field values into the output arrays at exactly the
reach's index in `reach_ids`, and every reach without a file is left at the
fill value after `write_var` normalization; in particular for topology
`[10, 20, 30]` and a result file only for reach `20` with `A0 = 5.5`, the
written group holds `A0 = [FILL, 5.5, FILL]` in that order. -/
theorem hivdi_topology_alignment (dir : HivdiDir) (rids : List Int) (nt : Nat)
    (hread : ∀ p ∈ dir, (p : Int × Option HivdiFile).2 ≠ none) :
    (∃ d, Hivdi.get_module_data dir rids nt = .ok d ∧
      (∀ (j : Nat) (hj : j < rids.length) (f : HivdiFile),
        List.lookup rids[j] dir = some (some f) →
          (Hivdi.append_module_data d).A0[j]? = some (nanToNum (FILL .f8).q f.A0) ∧
          (Hivdi.append_module_data d).alpha[j]? = some (nanToNum (FILL .f8).q f.alpha) ∧
          (Hivdi.append_module_data d).beta[j]? = some (nanToNum (FILL .f8).q f.beta) ∧
          (Hivdi.append_module_data d).Q[j]? = some (f.Q.map (nanToNum (FILL .f8).q))) ∧
      (∀ (j : Nat) (hj : j < rids.length),
        List.lookup rids[j] dir = none →
          (Hivdi.append_module_data d).A0[j]? = some (V.num (FILL .f8).q))) ∧
    (Hivdi.get_module_data exDir [10, 20, 30] 1).map
        (fun d => (Hivdi.append_module_data d).A0) =
      .ok [V.num (-999999999999), V.num (11/2), V.num (-999999999999)] := by
  constructor
  · have hgood : ∀ r ∈ rids, List.lookup r dir ≠ some none :=
      fun r _ => Hivdi.lookup_ne_some_none dir hread r
    obtain ⟨d, hd⟩ := Hivdi.read_loop_ok dir rids (Hivdi.create_data_dict rids.length nt) 0 hgood
    refine ⟨d, by rw [Hivdi.get_module_data_eq_loop dir rids nt hread]; exact hd, ?_, ?_⟩
    · intro j hj f hf
      have hA := Hivdi.read_loop_field dir (·.A0) (·.A0) (fun _ _ _ => rfl)
        rids _ 0 d (by simp [Hivdi.create_data_dict]) hd
      have hal := Hivdi.read_loop_field dir (·.alpha) (·.alpha) (fun _ _ _ => rfl)
        rids _ 0 d (by simp [Hivdi.create_data_dict]) hd
      have hbe := Hivdi.read_loop_field dir (·.beta) (·.beta) (fun _ _ _ => rfl)
        rids _ 0 d (by simp [Hivdi.create_data_dict]) hd
      have hQ := Hivdi.read_loop_field dir (·.Q) (·.Q) (fun _ _ _ => rfl)
        rids _ 0 d (by simp [Hivdi.create_data_dict]) hd
      have h1 := ((hA.2.2) j hj).1 f hf
      have h2 := ((hal.2.2) j hj).1 f hf
      have h3 := ((hbe.2.2) j hj).1 f hf
      have h4 := ((hQ.2.2) j hj).1 f hf
      rw [Nat.zero_add] at h1 h2 h3 h4
      refine ⟨?_, ?_, ?_, ?_⟩
      · rw [Hivdi.append_module_data, writeVarData_getElem .f8 (Or.inl rfl), h1]; rfl
      · rw [Hivdi.append_module_data, writeVarData_getElem .f8 (Or.inl rfl), h2]; rfl
      · rw [Hivdi.append_module_data, writeVarData_getElem .f8 (Or.inl rfl), h3]; rfl
      · show (writeVarData2 .f8 d.Q)[j]? = _
        rw [writeVarData2_getElem .f8 (Or.inl rfl), h4]; rfl
    · intro j hj hnone
      have hA := Hivdi.read_loop_field dir (·.A0) (·.A0) (fun _ _ _ => rfl)
        rids _ 0 d (by simp [Hivdi.create_data_dict]) hd
      have h1 := ((hA.2.2) j hj).2 hnone
      rw [Nat.zero_add] at h1
      have hcr : (Hivdi.create_data_dict rids.length nt).A0[j]? = some V.nan := by
        simp [Hivdi.create_data_dict, List.getElem?_replicate, hj]
      rw [Hivdi.append_module_data, writeVarData_getElem .f8 (Or.inl rfl), h1, hcr]
      rfl
  · rfl

/-- Witness for C1: the alignment theorem applied to the example scenario's
directory (a file only for reach `20`). -/
theorem hivdi_topology_alignment_witness :
    ((∃ d, Hivdi.get_module_data exDir [10, 20, 30] 1 = .ok d ∧
      (∀ (j : Nat) (hj : j < ([10, 20, 30] : List Int).length) (f : HivdiFile),
        List.lookup ([10, 20, 30] : List Int)[j] exDir = some (some f) →
          (Hivdi.append_module_data d).A0[j]? = some (nanToNum (FILL .f8).q f.A0) ∧
          (Hivdi.append_module_data d).alpha[j]? = some (nanToNum (FILL .f8).q f.alpha) ∧
          (Hivdi.append_module_data d).beta[j]? = some (nanToNum (FILL .f8).q f.beta) ∧
          (Hivdi.append_module_data d).Q[j]? = some (f.Q.map (nanToNum (FILL .f8).q))) ∧
      (∀ (j : Nat) (hj : j < ([10, 20, 30] : List Int).length),
        List.lookup ([10, 20, 30] : List Int)[j] exDir = none →
          (Hivdi.append_module_data d).A0[j]? = some (V.num (FILL .f8).q))) ∧
    (Hivdi.get_module_data exDir [10, 20, 30] 1).map
        (fun d => (Hivdi.append_module_data d).A0) =
      .ok [V.num (-999999999999), V.num (11/2), V.num (-999999999999)]) :=
  hivdi_topology_alignment exDir [10, 20, 30] 1
    (by intro p hp; simp [exDir] at hp; simp [hp])

/-- C2: For every topology reach with no matching HiVDI result file, every
field of the written hivdi group at that reach's index equals the "f8"
sentinel after `write_var` normalization (scalars equal the fill constant and
the per-time-step row is the fill constant repeated `nt` times) — never NaN
or undefined — given arrays pre-allocated to the topology size. -/
theorem hivdi_sentinel_completeness (dir : HivdiDir) (rids : List Int) (nt : Nat)
    (hread : ∀ p ∈ dir, (p : Int × Option HivdiFile).2 ≠ none) :
    ∃ d, Hivdi.get_module_data dir rids nt = .ok d ∧
      ∀ (j : Nat) (hj : j < rids.length), List.lookup rids[j] dir = none →
        (Hivdi.append_module_data d).A0[j]? = some (V.num (FILL .f8).q) ∧
        (Hivdi.append_module_data d).alpha[j]? = some (V.num (FILL .f8).q) ∧
        (Hivdi.append_module_data d).beta[j]? = some (V.num (FILL .f8).q) ∧
        (Hivdi.append_module_data d).Q[j]? = some (List.replicate nt (V.num (FILL .f8).q)) := by
  have hgood : ∀ r ∈ rids, List.lookup r dir ≠ some none :=
    fun r _ => Hivdi.lookup_ne_some_none dir hread r
  obtain ⟨d, hd⟩ := Hivdi.read_loop_ok dir rids (Hivdi.create_data_dict rids.length nt) 0 hgood
  refine ⟨d, by rw [Hivdi.get_module_data_eq_loop dir rids nt hread]; exact hd, ?_⟩
  intro j hj hnone
  have hA := Hivdi.read_loop_field dir (·.A0) (·.A0) (fun _ _ _ => rfl)
    rids _ 0 d (by simp [Hivdi.create_data_dict]) hd
  have hal := Hivdi.read_loop_field dir (·.alpha) (·.alpha) (fun _ _ _ => rfl)
    rids _ 0 d (by simp [Hivdi.create_data_dict]) hd
  have hbe := Hivdi.read_loop_field dir (·.beta) (·.beta) (fun _ _ _ => rfl)
    rids _ 0 d (by simp [Hivdi.create_data_dict]) hd
  have hQ := Hivdi.read_loop_field dir (·.Q) (·.Q) (fun _ _ _ => rfl)
    rids _ 0 d (by simp [Hivdi.create_data_dict]) hd
  have h1 := ((hA.2.2) j hj).2 hnone
  have h2 := ((hal.2.2) j hj).2 hnone
  have h3 := ((hbe.2.2) j hj).2 hnone
  have h4 := ((hQ.2.2) j hj).2 hnone
  rw [Nat.zero_add] at h1 h2 h3 h4
  have hs : (Hivdi.create_data_dict rids.length nt).A0[j]? = some V.nan := by
    simp [Hivdi.create_data_dict, List.getElem?_replicate, hj]
  have hsQ : (Hivdi.create_data_dict rids.length nt).Q[j]? =
      some (List.replicate nt V.nan) := by
    simp [Hivdi.create_data_dict, List.getElem?_replicate, hj]
  refine ⟨?_, ?_, ?_, ?_⟩
  · rw [Hivdi.append_module_data, writeVarData_getElem .f8 (Or.inl rfl), h1, hs]; rfl
  · rw [Hivdi.append_module_data, writeVarData_getElem .f8 (Or.inl rfl), h2]
    simp [Hivdi.create_data_dict, List.getElem?_replicate, hj, nanToNum]
  · rw [Hivdi.append_module_data, writeVarData_getElem .f8 (Or.inl rfl), h3]
    simp [Hivdi.create_data_dict, List.getElem?_replicate, hj, nanToNum]
  · show (writeVarData2 .f8 d.Q)[j]? = _
    rw [writeVarData2_getElem .f8 (Or.inl rfl), h4, hsQ]
    simp [List.map_replicate, nanToNum]

/-- Witness for C2: in the example scenario, reach 10 (index 0) has no result
file and the whole written row is the "f8" sentinel. -/
theorem hivdi_sentinel_completeness_witness :
    ∃ d, Hivdi.get_module_data exDir [10, 20, 30] 1 = .ok d ∧
      ∀ (j : Nat) (hj : j < ([10, 20, 30] : List Int).length),
        List.lookup ([10, 20, 30] : List Int)[j] exDir = none →
        (Hivdi.append_module_data d).A0[j]? = some (V.num (FILL .f8).q) ∧
        (Hivdi.append_module_data d).alpha[j]? = some (V.num (FILL .f8).q) ∧
        (Hivdi.append_module_data d).beta[j]? = some (V.num (FILL .f8).q) ∧
        (Hivdi.append_module_data d).Q[j]? = some (List.replicate 1 (V.num (FILL .f8).q)) :=
  hivdi_sentinel_completeness exDir [10, 20, 30] 1
    (by intro p hp; simp [exDir] at hp; simp [hp])

/-- The hivdi group's variables as they exist in the archive file; a field
is `none` until `createVariable` has created that variable. -/
structure GroupVars where
  Q : Option (List (List V))
  A0 : Option (List V)
  beta : Option (List V)
  alpha : Option (List V)
deriving DecidableEq, Repr

/-- A group with no variables yet, as `createGroup` returns on first use. -/
def emptyGroup : GroupVars := ⟨none, none, none, none⟩

/-- An archive's module-group map, restricted to the hivdi group: group name
↦ group variables (`none` means the group is absent). -/
def HivdiArchive := String → Option GroupVars

/-- An archive with no groups, as `create_new_version` produces before any
module is appended. -/
def emptyHivdiArchive : HivdiArchive := fun _ => none

namespace GroupVars

/-- Model of `grp.createVariable("Q", ...)` plus the data write of
`write_var` (AbstractModule.py line 176): netCDF4's `createVariable` raises
when a variable of that name already exists in the group. -/
def createQ (g : GroupVars) (v : List (List V)) : Except Unit GroupVars :=
  match g.Q with
  | some _ => .error ()
  | none => .ok { g with Q := some v }

/-- Model of `grp.createVariable("A0", ...)` plus the data write. -/
def createA0 (g : GroupVars) (v : List V) : Except Unit GroupVars :=
  match g.A0 with
  | some _ => .error ()
  | none => .ok { g with A0 := some v }

/-- Model of `grp.createVariable("beta", ...)` plus the data write. -/
def createBeta (g : GroupVars) (v : List V) : Except Unit GroupVars :=
  match g.beta with
  | some _ => .error ()
  | none => .ok { g with beta := some v }

/-- Model of `grp.createVariable("alpha", ...)` plus the data write. -/
def createAlpha (g : GroupVars) (v : List V) : Except Unit GroupVars :=
  match g.alpha with
  | some _ => .error ()
  | none => .ok { g with alpha := some v }

theorem createQ_ok (g : GroupVars) (v : List (List V)) (g' : GroupVars)
    (h : g.createQ v = .ok g') : g'.Q = some v := by
  unfold createQ at h
  rcases hg : g.Q with _ | w
  · rw [hg] at h
    injection h with h
    rw [← h]
  · rw [hg] at h; cases h

theorem createA0_ok (g : GroupVars) (v : List V) (g' : GroupVars)
    (h : g.createA0 v = .ok g') : g'.Q = g.Q := by
  unfold createA0 at h
  rcases hg : g.A0 with _ | w
  · rw [hg] at h
    injection h with h
    rw [← h]
  · rw [hg] at h; cases h

theorem createBeta_ok (g : GroupVars) (v : List V) (g' : GroupVars)
    (h : g.createBeta v = .ok g') : g'.Q = g.Q := by
  unfold createBeta at h
  rcases hg : g.beta with _ | w
  · rw [hg] at h
    injection h with h
    rw [← h]
  · rw [hg] at h; cases h

theorem createAlpha_ok (g : GroupVars) (v : List V) (g' : GroupVars)
    (h : g.createAlpha v = .ok g') : g'.Q = g.Q := by
  unfold createAlpha at h
  rcases hg : g.alpha with _ | w
  · rw [hg] at h
    injection h with h
    rw [← h]
  · rw [hg] at h; cases h

end GroupVars

/-- The archive mutation of `Hivdi.append_module_data` (Hivdi.py lines
140-146): open the archive, get-or-create the `hivdi` group
(`createGroup`), then `write_var` creates `Q`, `A0`, `beta`, `alpha` in
that order, each raising if the variable already exists in the group. -/
def Hivdi.append_module_data_arch (d : HivdiDict) (a : HivdiArchive) :
    Except Unit HivdiArchive :=
  match ((a "hivdi").getD emptyGroup).createQ (writeVarData2 .f8 d.Q) with
  | .error e => .error e
  | .ok g1 =>
    match g1.createA0 (writeVarData .f8 d.A0) with
    | .error e => .error e
    | .ok g2 =>
      match g2.createBeta (writeVarData .f8 d.beta) with
      | .error e => .error e
      | .ok g3 =>
        match g3.createAlpha (writeVarData .f8 d.alpha) with
        | .error e => .error e
        | .ok g4 => .ok (fun n => if n = "hivdi" then some g4 else a n)

/-- Model of `AbstractModule.append_module` (AbstractModule.py lines 85-95)
for HiVDI: run the Result Reader (`get_module_data`) then the Archive
Writer (`append_module_data`), either failure propagating. -/
def Hivdi.append_module (dir : HivdiDir) (rids : List Int) (nt : Nat)
    (a : HivdiArchive) : Except Unit HivdiArchive :=
  match Hivdi.get_module_data dir rids nt with
  | .error e => .error e
  | .ok d => Hivdi.append_module_data_arch d a

/-- The hivdi group's full content as a function of the extracted record
alone. -/
def Hivdi.fullGroup (d : HivdiDict) : GroupVars :=
  { Q := some (writeVarData2 .f8 d.Q)
    A0 := some (writeVarData .f8 d.A0)
    beta := some (writeVarData .f8 d.beta)
    alpha := some (writeVarData .f8 d.alpha) }

/-- On an archive whose hivdi group is absent, the writer succeeds and
leaves exactly `fullGroup` of the record. -/
theorem Hivdi.append_arch_fresh (d : HivdiDict) (a : HivdiArchive)
    (ha : a "hivdi" = none) :
    Hivdi.append_module_data_arch d a =
      .ok (fun n => if n = "hivdi" then some (Hivdi.fullGroup d) else a n) := by
  unfold Hivdi.append_module_data_arch
  rw [ha]
  rfl

/-- On an archive whose hivdi group already holds a `Q` variable, the writer
raises at the first `createVariable`. -/
theorem Hivdi.append_arch_group_some (d : HivdiDict) (a : HivdiArchive)
    (g : GroupVars) (v : List (List V))
    (hg : a "hivdi" = some g) (hQ : g.Q = some v) :
    Hivdi.append_module_data_arch d a = .error () := by
  unfold Hivdi.append_module_data_arch
  rw [hg, Option.getD_some]
  have hcq : g.createQ (writeVarData2 .f8 d.Q) = .error () := by
    unfold GroupVars.createQ
    rw [hQ]
  rw [hcq]

/-- A successful writer run leaves a group whose `Q` exists, so any rerun of
the writer on the resulting archive raises. -/
theorem Hivdi.append_arch_rerun_error (d dtwo : HivdiDict) (a aone : HivdiArchive)
    (h : Hivdi.append_module_data_arch d a = .ok aone) :
    Hivdi.append_module_data_arch dtwo aone = .error () := by
  unfold Hivdi.append_module_data_arch at h
  rcases hq : ((a "hivdi").getD emptyGroup).createQ (writeVarData2 .f8 d.Q) with e | g1
  · rw [hq] at h; cases h
  · rw [hq] at h
    dsimp only at h
    rcases ha0 : g1.createA0 (writeVarData .f8 d.A0) with e | g2
    · rw [ha0] at h; cases h
    · rw [ha0] at h
      dsimp only at h
      rcases hbe : g2.createBeta (writeVarData .f8 d.beta) with e | g3
      · rw [hbe] at h; cases h
      · rw [hbe] at h
        dsimp only at h
        rcases hal : g3.createAlpha (writeVarData .f8 d.alpha) with e | g4
        · rw [hal] at h; cases h
        · rw [hal] at h
          dsimp only at h
          injection h with h
          have hQ4 : g4.Q = some (writeVarData2 .f8 d.Q) := by
            rw [GroupVars.createAlpha_ok _ _ _ hal, GroupVars.createBeta_ok _ _ _ hbe,
              GroupVars.createA0_ok _ _ _ ha0, GroupVars.createQ_ok _ _ _ hq]
          have hg : aone "hivdi" = some g4 := by
            rw [← h]
            simp
          exact Hivdi.append_arch_group_some dtwo aone g4 _ hg hQ4

/-- Counterexample for C8: on the example scenario, `append_module` into the
fresh archive succeeds, but running the same Result Reader + Archive Writer
a second time on the resulting archive returns an error (netCDF4's
`createVariable` raises on the already-existing `Q` variable) instead of
reproducing the group state. -/
theorem hivdi_rerun_same_archive_aborts :
    (∃ aone, Hivdi.append_module exDir [10, 20, 30] 1 emptyHivdiArchive = .ok aone) ∧
    (Hivdi.append_module exDir [10, 20, 30] 1 emptyHivdiArchive).bind
      (fun aone => Hivdi.append_module exDir [10, 20, 30] 1 aone) = .error () :=
  ⟨⟨_, rfl⟩, rfl⟩

/-- C8 (amended): the module write is deterministic — running the HiVDI
Result Reader + Archive Writer on an unchanged input set into a fresh
archive (as every pipeline run does: `create_new_version` creates the
archive anew before modules append) yields identical hivdi group content, a
pure function of the inputs — but a second `append_module` on the same
already-written archive raises in `write_var`, because `createVariable`
raises when the variable already exists. -/
theorem hivdi_module_write_rerun :
    (∀ (dir : HivdiDir) (rids : List Int) (nt : Nat) (a b : HivdiArchive),
      a "hivdi" = none → b "hivdi" = none →
      ∀ aone bone, Hivdi.append_module dir rids nt a = .ok aone →
        Hivdi.append_module dir rids nt b = .ok bone →
        aone "hivdi" = bone "hivdi") ∧
    (∀ (dir : HivdiDir) (rids : List Int) (nt : Nat) (a aone : HivdiArchive),
      Hivdi.append_module dir rids nt a = .ok aone →
      Hivdi.append_module dir rids nt aone = .error ()) := by
  constructor
  · intro dir rids nt a b ha hb aone bone h1 h2
    unfold Hivdi.append_module at h1 h2
    rcases hd : Hivdi.get_module_data dir rids nt with e | d
    · rw [hd] at h1; cases h1
    · rw [hd] at h1 h2
      dsimp only at h1 h2
      rw [Hivdi.append_arch_fresh d a ha] at h1
      rw [Hivdi.append_arch_fresh d b hb] at h2
      injection h1 with h1
      injection h2 with h2
      rw [← h1, ← h2]
      simp
  · intro dir rids nt a aone h1
    unfold Hivdi.append_module at h1 ⊢
    rcases hd : Hivdi.get_module_data dir rids nt with e | d
    · rfl
    · rw [hd] at h1
      dsimp only at h1
      dsimp only
      exact Hivdi.append_arch_rerun_error d d a aone h1

/-- Witness for C8 (amended): both parts applied to the example scenario's
directory and the fresh archive. -/
theorem hivdi_module_write_rerun_witness :
    ∃ aone, Hivdi.append_module exDir [10, 20, 30] 1 emptyHivdiArchive = .ok aone ∧
      aone "hivdi" = aone "hivdi" ∧
      Hivdi.append_module exDir [10, 20, 30] 1 aone = .error () := by
  obtain ⟨aone, ha⟩ : ∃ aone,
      Hivdi.append_module exDir [10, 20, 30] 1 emptyHivdiArchive = .ok aone := ⟨_, rfl⟩
  exact ⟨aone, ha,
    hivdi_module_write_rerun.1 exDir [10, 20, 30] 1 emptyHivdiArchive emptyHivdiArchive
      rfl rfl aone aone ha ha,
    hivdi_module_write_rerun.2 exDir [10, 20, 30] 1 emptyHivdiArchive aone ha⟩

theorem Hivdi.read_loop_error (dir : HivdiDir) :
    ∀ (rids : List Int) (d : HivdiDict) (i : Nat),
    (∃ r ∈ rids, List.lookup r dir = some none) →
    Hivdi.read_loop dir rids d i = .error () := by
  intro rids
  induction rids with
  | nil => rintro d i ⟨r, hr, _⟩; cases hr
  | cons r rest ih =>
    rintro d i ⟨r₀, hr₀, hbad⟩
    rw [Hivdi.read_loop]
    rcases List.mem_cons.mp hr₀ with rfl | hmem
    · rw [hbad]
    · rcases hlk : List.lookup r dir with _ | of
      · exact ih d (i+1) ⟨r₀, hmem, hbad⟩
      · rcases of with _ | f
        · rfl
        · exact ih (Hivdi.insertReach d i f) (i+1) ⟨r₀, hmem, hbad⟩

theorem Hivdi.get_module_data_error (dir : HivdiDir) (rids : List Int) (nt : Nat)
    (hbad : ∃ r ∈ rids, List.lookup r dir = some none) :
    Hivdi.get_module_data dir rids nt = .error () := by
  match dir with
  | [] =>
    obtain ⟨r, _, hr⟩ := hbad
    simp [List.lookup] at hr
  | (k, none) :: rest => rfl
  | (k, some f) :: rest =>
    show Hivdi.read_loop _ rids _ 0 = .error ()
    exact Hivdi.read_loop_error _ rids _ 0 hbad

/-- A Consensus per-reach result file `{reach_id}_consensus.nc` as extracted
by `Consensus.get_module_data` (Consensus.py lines 86-110): the discharge
payload, the time strings, and the epoch-seconds payload the loop derives
from them (the `datetime.strptime` conversion is external library behavior,
so the converted payload is carried by the file model). -/
structure ConsFile where
  consensus_q : List V
  time_str : List String
  time_int : List V
deriving DecidableEq, Repr

/-- The `consensus` result directory; `none` models a listed file whose
per-reach extraction raises (unopenable file or missing field) before any
row is written. -/
abbrev ConsDir := List (Int × Option ConsFile)

/-- The in-memory Consensus result record. -/
structure ConsDict where
  consensus_q : List (List V)
  time_str : List (List String)
  time_int : List (List V)
deriving DecidableEq, Repr

namespace Consensus

/-- Model of `Consensus.create_data_dict` (Consensus.py lines 118-137): object arrays
sized to the topology, each cell pre-filled with a one-element fill payload.
The "i8" and "S20" entries of this module's extended fill table are defined
in a superclass file that is not part of this source tree, so they are the
parameters `fI` and `fS`. -/
def create_data_dict (nr : Nat) (fI : ℚ) (fS : String) : ConsDict :=
  { consensus_q := List.replicate nr [V.num (FILL .f8).q]
    time_str := List.replicate nr [fS]
    time_int := List.replicate nr [V.num fI] }

/-- The per-reach writes of the `try` block (Consensus.py lines 85-112). -/
def insertReach (d : ConsDict) (i : Nat) (f : ConsFile) : ConsDict :=
  { consensus_q := d.consensus_q.set i f.consensus_q
    time_str := d.time_str.set i f.time_str
    time_int := d.time_int.set i f.time_int }

/-- The extraction loop of `Consensus.get_module_data` (Consensus.py lines
80-115): every present reach's extraction runs inside `try/except`; a
failure logs `Reach {s_rid} failed for consensus` and the loop continues, so
the loop always returns the record together with the log of failed reaches. -/
def read_loop (dir : ConsDir) (rids : List Int) (d : ConsDict) (i : Nat)
    (log : List Int) : ConsDict × List Int :=
  match rids with
  | [] => (d, log)
  | r :: rest =>
    match List.lookup r dir with
    | none => read_loop dir rest d (i+1) log
    | some none => read_loop dir rest d (i+1) (log ++ [r])
    | some (some f) => read_loop dir rest (insertReach d i f) (i+1) log

/-- Model of `Consensus.get_module_data` (Consensus.py lines 65-116): allocate the
record; when the listing is nonempty, `get_nc_attrs` opens the first listed
file outside any `try` (a failure there propagates), then run the loop. -/
def get_module_data (dir : ConsDir) (rids : List Int) (fI : ℚ) (fS : String) :
    Except Unit (ConsDict × List Int) :=
  let d := create_data_dict rids.length fI fS
  match dir with
  | [] => .ok (d, [])
  | (_, none) :: _ => .error ()
  | (_, some _) :: _ => .ok (read_loop dir rids d 0 [])

theorem cons_read_loop_field {α : Type} (dir : ConsDir)
    (F : ConsDict → List α) (upd : ConsFile → α)
    (hF : ∀ d i f, F (insertReach d i f) = (F d).set i (upd f)) :
    ∀ (rids : List Int) (d : ConsDict) (i : Nat) (log : List Int),
    (F d).length = i + rids.length →
    (F (read_loop dir rids d i log).1).length = (F d).length ∧
    (∀ k, k < i → (F (read_loop dir rids d i log).1)[k]? = (F d)[k]?) ∧
    (∀ (j : Nat) (hj : j < rids.length),
      (∀ f, List.lookup rids[j] dir = some (some f) →
        (F (read_loop dir rids d i log).1)[i+j]? = some (upd f)) ∧
      ((∀ f, List.lookup rids[j] dir ≠ some (some f)) →
        (F (read_loop dir rids d i log).1)[i+j]? = (F d)[i+j]?)) := by
  intro rids
  induction rids with
  | nil =>
    intro d i log _
    exact ⟨rfl, fun _ _ => rfl, fun j hj => absurd hj (by simp)⟩
  | cons r rest ih =>
    intro d i log hlen
    rw [List.length_cons] at hlen
    rw [read_loop]
    rcases hlk : List.lookup r dir with _ | of
    · dsimp only
      obtain ⟨h1, h2, h3⟩ := ih d (i+1) log (by omega)
      refine ⟨h1, fun k hk => h2 k (Nat.lt_succ_of_lt hk), ?_⟩
      intro j hj
      match j with
      | 0 =>
        refine ⟨fun f hf => ?_, fun _ => ?_⟩
        · rw [List.getElem_cons_zero, hlk] at hf; cases hf
        · exact h2 i (Nat.lt_succ_self i)
      | j' + 1 =>
        have hj' : j' < rest.length := Nat.lt_of_succ_lt_succ hj
        rw [List.getElem_cons_succ, show i + (j'+1) = (i+1) + j' from by omega]
        exact h3 j' hj'
    · rcases of with _ | f
      · dsimp only
        obtain ⟨h1, h2, h3⟩ := ih d (i+1) (log ++ [r]) (by omega)
        refine ⟨h1, fun k hk => h2 k (Nat.lt_succ_of_lt hk), ?_⟩
        intro j hj
        match j with
        | 0 =>
          refine ⟨fun f hf => ?_, fun _ => ?_⟩
          · rw [List.getElem_cons_zero, hlk] at hf; cases hf
          · exact h2 i (Nat.lt_succ_self i)
        | j' + 1 =>
          have hj' : j' < rest.length := Nat.lt_of_succ_lt_succ hj
          rw [List.getElem_cons_succ, show i + (j'+1) = (i+1) + j' from by omega]
          exact h3 j' hj'
      · dsimp only
        obtain ⟨h1, h2, h3⟩ := ih (insertReach d i f) (i+1) log
          (by rw [hF, List.length_set]; omega)
        have hilt : i < (F d).length := by omega
        refine ⟨by rw [h1, hF, List.length_set], ?_, ?_⟩
        · intro k hk
          rw [h2 k (Nat.lt_succ_of_lt hk), hF, List.getElem?_set_ne (Nat.ne_of_gt hk)]
        · intro j hj
          match j with
          | 0 =>
            refine ⟨fun f₀ hf₀ => ?_, fun hno => ?_⟩
            · rw [List.getElem_cons_zero, hlk] at hf₀
              obtain rfl : f = f₀ := by injection hf₀ with h; injection h
              have hpos := h2 i (Nat.lt_succ_self i)
              rw [hF, List.getElem?_set_self hilt] at hpos
              exact hpos
            · exact absurd rfl (by rw [List.getElem_cons_zero] at hno; rw [hlk] at hno; exact hno f)
          | j' + 1 =>
            have hj' : j' < rest.length := Nat.lt_of_succ_lt_succ hj
            obtain ⟨ha, hb⟩ := h3 j' hj'
            rw [List.getElem_cons_succ, show i + (j'+1) = (i+1) + j' from by omega]
            refine ⟨ha, fun hno => ?_⟩
            rw [hb hno, hF, List.getElem?_set_ne (by omega)]

theorem read_loop_log (dir : ConsDir) :
    ∀ (rids : List Int) (d : ConsDict) (i : Nat) (log : List Int),
    (∀ r ∈ log, r ∈ (read_loop dir rids d i log).2) ∧
    (∀ r ∈ rids, List.lookup r dir = some none → r ∈ (read_loop dir rids d i log).2) := by
  intro rids
  induction rids with
  | nil =>
    intro d i log
    exact ⟨fun r hr => hr, fun r hr _ => absurd hr (List.not_mem_nil r)⟩
  | cons r rest ih =>
    intro d i log
    rw [read_loop]
    rcases hlk : List.lookup r dir with _ | of
    · refine ⟨(ih d (i+1) log).1, ?_⟩
      intro r₀ hr₀ hbad
      rcases List.mem_cons.mp hr₀ with rfl | hmem
      · rw [hlk] at hbad; cases hbad
      · exact (ih d (i+1) log).2 r₀ hmem hbad
    · rcases of with _ | f
      · refine ⟨?_, ?_⟩
        · intro r₀ hr₀
          exact (ih d (i+1) (log ++ [r])).1 r₀ (List.mem_append_left _ hr₀)
        · intro r₀ hr₀ hbad
          rcases List.mem_cons.mp hr₀ with rfl | hmem
          · exact (ih d (i+1) (log ++ [r₀])).1 r₀
              (List.mem_append_right _ (List.mem_singleton_self r₀))
          · exact (ih d (i+1) (log ++ [r])).2 r₀ hmem hbad
      · refine ⟨(ih (insertReach d i f) (i+1) log).1, ?_⟩
        intro r₀ hr₀ hbad
        rcases List.mem_cons.mp hr₀ with rfl | hmem
        · rw [hlk] at hbad; cases hbad
        · exact (ih (insertReach d i f) (i+1) log).2 r₀ hmem hbad

end Consensus

/-- An Offline result file (dash-joined per-reach naming) as read by
`Offline.get_module_data` (Offline.py lines 77-95): thirteen per-time-step
discharge rows plus `d_x_area_u`, which is copied only when present in the
file's variables (`none` models a file without it). -/
structure OffFile where
  d_x_area : List V
  d_x_area_u : Option (List V)
  metro_q_c : List V
  bam_q_c : List V
  hivdi_q_c : List V
  momma_q_c : List V
  sads_q_c : List V
  consensus_q_c : List V
  metro_q_uc : List V
  bam_q_uc : List V
  hivdi_q_uc : List V
  momma_q_uc : List V
  sads_q_uc : List V
  consensus_q_uc : List V
deriving DecidableEq, Repr

/-- The offline result directory: each reach identifier parsed out of a
file's dash-joined name maps to that file's content; `none` in the second
component models a listed file on which `Dataset(...)` raises. -/
abbrev OffDir := List (Int × Option OffFile)

/-- The in-memory Offline record (`off_dict`, Offline.py lines 99-141). -/
structure OffDict where
  nt : Nat
  d_x_area : List (List V)
  d_x_area_u : List (List V)
  metro_q_c : List (List V)
  bam_q_c : List (List V)
  hivdi_q_c : List (List V)
  momma_q_c : List (List V)
  sads_q_c : List (List V)
  consensus_q_c : List (List V)
  metro_q_uc : List (List V)
  bam_q_uc : List (List V)
  hivdi_q_uc : List (List V)
  momma_q_uc : List (List V)
  sads_q_uc : List (List V)
  consensus_q_uc : List (List V)
deriving DecidableEq, Repr

namespace Offline

/-- Model of `Offline.create_data_dict` (Offline.py lines 99-141): every
array is `(num_reaches, nt)` pre-filled with NaN. -/
def create_data_dict (nr nt : Nat) : OffDict :=
  { nt := nt
    d_x_area := List.replicate nr (List.replicate nt V.nan)
    d_x_area_u := List.replicate nr (List.replicate nt V.nan)
    metro_q_c := List.replicate nr (List.replicate nt V.nan)
    bam_q_c := List.replicate nr (List.replicate nt V.nan)
    hivdi_q_c := List.replicate nr (List.replicate nt V.nan)
    momma_q_c := List.replicate nr (List.replicate nt V.nan)
    sads_q_c := List.replicate nr (List.replicate nt V.nan)
    consensus_q_c := List.replicate nr (List.replicate nt V.nan)
    metro_q_uc := List.replicate nr (List.replicate nt V.nan)
    bam_q_uc := List.replicate nr (List.replicate nt V.nan)
    hivdi_q_uc := List.replicate nr (List.replicate nt V.nan)
    momma_q_uc := List.replicate nr (List.replicate nt V.nan)
    sads_q_uc := List.replicate nr (List.replicate nt V.nan)
    consensus_q_uc := List.replicate nr (List.replicate nt V.nan) }

/-- One iteration's writes in `Offline.get_module_data` (Offline.py lines
79-93): every row slice at the running topology index, with `d_x_area_u`
written only when the variable exists in the file. -/
def insertReach (d : OffDict) (i : Nat) (f : OffFile) : OffDict :=
  { d with
    d_x_area := d.d_x_area.set i f.d_x_area
    d_x_area_u :=
      match f.d_x_area_u with
      | some u => d.d_x_area_u.set i u
      | none => d.d_x_area_u
    metro_q_c := d.metro_q_c.set i f.metro_q_c
    bam_q_c := d.bam_q_c.set i f.bam_q_c
    hivdi_q_c := d.hivdi_q_c.set i f.hivdi_q_c
    momma_q_c := d.momma_q_c.set i f.momma_q_c
    sads_q_c := d.sads_q_c.set i f.sads_q_c
    consensus_q_c := d.consensus_q_c.set i f.consensus_q_c
    metro_q_uc := d.metro_q_uc.set i f.metro_q_uc
    bam_q_uc := d.bam_q_uc.set i f.bam_q_uc
    hivdi_q_uc := d.hivdi_q_uc.set i f.hivdi_q_uc
    momma_q_uc := d.momma_q_uc.set i f.momma_q_uc
    sads_q_uc := d.sads_q_uc.set i f.sads_q_uc
    consensus_q_uc := d.consensus_q_uc.set i f.consensus_q_uc }

/-- The extraction loop of `Offline.get_module_data` (Offline.py lines
73-96): `Dataset(off_file, 'r')` is opened with no `try/except`, so an open
failure propagates and aborts the loop. -/
def read_loop (dir : OffDir) (rids : List Int) (d : OffDict) (i : Nat) :
    Except Unit OffDict :=
  match rids with
  | [] => .ok d
  | r :: rest =>
    match List.lookup r dir with
    | none => read_loop dir rest d (i+1)
    | some none => .error ()
    | some (some f) => read_loop dir rest (insertReach d i f) (i+1)

/-- Model of `Offline.get_module_data` (Offline.py lines 51-97): allocate the
NaN-filled record; when the listing is nonempty, read attributes from the
first listed file (an open failure there propagates) and run the loop. -/
def get_module_data (dir : OffDir) (rids : List Int) (nt : Nat) :
    Except Unit OffDict :=
  let d := create_data_dict rids.length nt
  match dir with
  | [] => .ok d
  | (_, none) :: _ => .error ()
  | (_, some _) :: _ => read_loop dir rids d 0

theorem off_read_loop_error (dir : OffDir) :
    ∀ (rids : List Int) (d : OffDict) (i : Nat),
    (∃ r ∈ rids, List.lookup r dir = some none) →
    read_loop dir rids d i = .error () := by
  intro rids
  induction rids with
  | nil => rintro d i ⟨r, hr, _⟩; cases hr
  | cons r rest ih =>
    rintro d i ⟨r₀, hr₀, hbad⟩
    rw [read_loop]
    rcases List.mem_cons.mp hr₀ with rfl | hmem
    · rw [hbad]
    · rcases hlk : List.lookup r dir with _ | of
      · exact ih d (i+1) ⟨r₀, hmem, hbad⟩
      · rcases of with _ | f
        · rfl
        · exact ih (insertReach d i f) (i+1) ⟨r₀, hmem, hbad⟩

theorem off_get_module_data_error (dir : OffDir) (rids : List Int) (nt : Nat)
    (hbad : ∃ r ∈ rids, List.lookup r dir = some none) :
    get_module_data dir rids nt = .error () := by
  match dir with
  | [] =>
    obtain ⟨r, _, hr⟩ := hbad
    simp [List.lookup] at hr
  | (k, none) :: rest => rfl
  | (k, some f) :: rest =>
    show read_loop _ rids _ 0 = .error ()
    exact off_read_loop_error _ rids _ 0 hbad

end Offline

/-- Counterexample for C6: with a readable file for reach 10 but an
unreadable result file for reach 20, `Hivdi.get_module_data` raises
(returns an error) instead of logging, leaving reach 20 at fill, and
continuing — a single reach's read failure aborts HiVDI's whole extraction. -/
theorem hivdi_single_reach_failure_aborts :
    Hivdi.get_module_data [((10 : Int), some exFile), ((20 : Int), none)]
      [10, 20, 30] 1 = .error () := rfl

/-- C6 (amended): per-reach read-failure handling is module-specific: a
failing reach aborts the whole extraction of HiVDI and of Offline (neither
has a try/except around the per-reach reads), while Consensus wraps each
reach's extraction in try/except — a failing reach is logged, its rows stay
at the pre-filled payloads, and extraction continues, still extracting every
readable reach. -/
theorem read_failure_handling_per_module :
    (∀ (dir : HivdiDir) (rids : List Int) (nt : Nat),
      (∃ r ∈ rids, List.lookup r dir = some none) →
      Hivdi.get_module_data dir rids nt = .error ()) ∧
    (∀ (dir : OffDir) (rids : List Int) (nt : Nat),
      (∃ r ∈ rids, List.lookup r dir = some none) →
      Offline.get_module_data dir rids nt = .error ()) ∧
    (∀ (dir : ConsDir) (rids : List Int) (fI : ℚ) (fS : String),
      (∀ p ∈ dir.head?, (p : Int × Option ConsFile).2 ≠ none) →
      ∃ out, Consensus.get_module_data dir rids fI fS = .ok out ∧
        (∀ (j : Nat) (hj : j < rids.length),
          List.lookup rids[j] dir = some none →
            out.1.consensus_q[j]? = some [V.num (FILL .f8).q] ∧
            out.1.time_str[j]? = some [fS] ∧
            out.1.time_int[j]? = some [V.num fI] ∧
            rids[j] ∈ out.2) ∧
        (∀ (j : Nat) (hj : j < rids.length) (f : ConsFile),
          List.lookup rids[j] dir = some (some f) →
            out.1.consensus_q[j]? = some f.consensus_q)) := by
  refine ⟨?_, ?_, ?_⟩
  · exact fun dir rids nt => Hivdi.get_module_data_error dir rids nt
  · exact fun dir rids nt => Offline.off_get_module_data_error dir rids nt
  · intro dir rids fI fS hhead
    match dir with
    | [] =>
      refine ⟨(Consensus.create_data_dict rids.length fI fS, []), rfl, ?_, ?_⟩
      · intro j hj hbad; simp [List.lookup] at hbad
      · intro j hj f hf; simp [List.lookup] at hf
    | (k, none) :: rest =>
      exact absurd rfl (hhead (k, none) rfl)
    | (k, some f₀) :: rest =>
      set dir := (k, some f₀) :: rest with hdir
      set d0 := Consensus.create_data_dict rids.length fI fS with hd0
      refine ⟨Consensus.read_loop dir rids d0 0 [], rfl, ?_, ?_⟩
      · intro j hj hbad
        have hq := Consensus.cons_read_loop_field dir (·.consensus_q) (·.consensus_q)
          (fun _ _ _ => rfl) rids d0 0 []
          (by simp [hd0, Consensus.create_data_dict])
        have hts := Consensus.cons_read_loop_field dir (·.time_str) (·.time_str)
          (fun _ _ _ => rfl) rids d0 0 []
          (by simp [hd0, Consensus.create_data_dict])
        have hti := Consensus.cons_read_loop_field dir (·.time_int) (·.time_int)
          (fun _ _ _ => rfl) rids d0 0 []
          (by simp [hd0, Consensus.create_data_dict])
        have hno : ∀ f, List.lookup rids[j] dir ≠ some (some f) := by
          intro f hf; rw [hbad] at hf; cases hf
        have h1 := ((hq.2.2) j hj).2 hno
        have h2 := ((hts.2.2) j hj).2 hno
        have h3 := ((hti.2.2) j hj).2 hno
        rw [Nat.zero_add] at h1 h2 h3
        refine ⟨?_, ?_, ?_, ?_⟩
        · rw [h1]; simp [hd0, Consensus.create_data_dict, List.getElem?_replicate, hj]
        · rw [h2]; simp [hd0, Consensus.create_data_dict, List.getElem?_replicate, hj]
        · rw [h3]; simp [hd0, Consensus.create_data_dict, List.getElem?_replicate, hj]
        · exact (Consensus.read_loop_log dir rids d0 0 []).2 rids[j]
            (List.getElem_mem hj) hbad
      · intro j hj f hf
        have hq := Consensus.cons_read_loop_field dir (·.consensus_q) (·.consensus_q)
          (fun _ _ _ => rfl) rids d0 0 []
          (by simp [hd0, Consensus.create_data_dict])
        have h1 := ((hq.2.2) j hj).1 f hf
        rw [Nat.zero_add] at h1
        exact h1

/-- Witness for C6 (amended): concrete two-reach scenario where reach 20's
consensus file is unreadable: extraction still succeeds, reach 20's row is
the fill payload and 20 is logged, while reach 10's data is extracted; and
the HiVDI part applied to an unreadable file for reach 20 yields an error. -/
theorem read_failure_handling_per_module_witness :
    Hivdi.get_module_data [((20 : Int), none)] [20] 1 = .error () ∧
    Offline.get_module_data [((20 : Int), none)] [20] 1 = .error () ∧
    ∃ out, Consensus.get_module_data
        [((10 : Int), some ⟨[V.num 3], ["t"], [V.num 4]⟩), ((20 : Int), none)]
        [10, 20] 0 "f" = .ok out ∧
      out.1.consensus_q[1]? = some [V.num (FILL .f8).q] ∧
      (20 : Int) ∈ out.2 ∧
      out.1.consensus_q[0]? = some [V.num 3] := by
  refine ⟨?_, ?_, ?_⟩
  · exact read_failure_handling_per_module.1 [((20 : Int), none)] [20] 1
      ⟨20, by decide, by decide⟩
  · exact read_failure_handling_per_module.2.1 [((20 : Int), none)] [20] 1
      ⟨20, by decide, by decide⟩
  · obtain ⟨out, hout, hbadpart, hgoodpart⟩ := read_failure_handling_per_module.2.2
      [((10 : Int), some ⟨[V.num 3], ["t"], [V.num 4]⟩), ((20 : Int), none)]
      [10, 20] 0 "f" (by intro p hp; simp at hp; subst hp; simp)
    obtain ⟨hq, _, _, hlog⟩ := hbadpart 1 (by decide) (by decide)
    have hg := hgoodpart 0 (by decide) ⟨[V.num 3], ["t"], [V.num 4]⟩ (by decide)
    exact ⟨out, hout, hq, hlog, hg⟩

/-- Numpy fancy assignment `arr[idx] = vals` on a list: write the k-th value
at the k-th index, stopping when either list runs out (for the modules below
the index and value counts always agree, except in `Swot._insert_nx` where
running out of file rows models the `try/except` early return). -/
def writeAt {α : Type} : List α → List Nat → List α → List α
  | cells, i :: is, row :: rs => writeAt (cells.set i row) is rs
  | cells, _, _ => cells

/-- Numpy fancy read `arr[idx]`: the values of `cells` at the positions of
`idx`, in order. -/
def gather {α : Type} (cells : List α) (dflt : α) (idx : List Nat) : List α :=
  idx.map (fun i => cells.getD i dflt)

/-- Model of `np.where(nrids == r)`: the positions of the topology nodes that belong
to reach `r`, in increasing order. -/
def nodeIdx (nrids : List Int) (r : Int) : List Nat :=
  (List.range nrids.length).filter (fun i => nrids.getD i 0 == r)

/-- Model of `sv_dict["node_id"][indexes] = self.sos_nids[indexes]` with
`indexes = np.where(s_rid == self.sos_nrids)` (Sic4dvar.py lines 87-88),
elementwise over the three parallel arrays. -/
def maskFill : List Int → List Int → List Int → Int → List Int
  | a :: as, nr :: nrs, ni :: nis, r =>
    (if nr = r then ni else a) :: maskFill as nrs nis r
  | as, _, _, _ => as

/-- A SWOT per-reach file `{reach_id}_SWOT.nc` as read by
`Swot.get_module_data` (Swot.py lines 83-88): the observations payload, the
reach-level time payload, and the per-node time rows. -/
structure SwotFile where
  observations : List V
  reach_time : List V
  node_time : List (List V)
deriving DecidableEq, Repr

/-- The in-memory SWOT record (`swot_dict`): object arrays of
variable-length payloads. -/
structure SwotDict where
  observations : List (List V)
  reach_time : List (List V)
  node_time : List (List V)
deriving DecidableEq, Repr

namespace Swot

/-- Model of `Swot.create_data_dict` (Swot.py lines 94-113): object arrays sized to
the topology, filled with one-element payloads of the "i4" fill (for
`observations`) and the "f8" fill (for the time arrays). -/
def create_data_dict (nr nn : Nat) : SwotDict :=
  { observations := List.replicate nr [V.num (FILL .i4).q]
    reach_time := List.replicate nr [V.num (FILL .f8).q]
    node_time := List.replicate nn [V.num (FILL .f8).q] }

/-- Model of `Swot._insert_nx` (Swot.py lines 132-155): write the file's node-time
rows at the reach's node positions, one by one; if the file runs out of rows
the `except` clause returns early, leaving the remaining positions at their
previous content. -/
def insert_nx (d : SwotDict) (f : SwotFile) (idx : List Nat) : SwotDict :=
  { d with node_time := writeAt d.node_time idx f.node_time }

/-- The extraction loop of `Swot.get_module_data` (Swot.py lines 78-89). -/
def read_loop (dir : List (Int × SwotFile)) (nrids : List Int)
    (rids : List Int) (d : SwotDict) (i : Nat) : SwotDict :=
  match rids with
  | [] => d
  | r :: rest =>
    match List.lookup r dir with
    | none => read_loop dir nrids rest d (i+1)
    | some f =>
      read_loop dir nrids rest
        (insert_nx
          { d with
            observations := d.observations.set i f.observations
            reach_time := d.reach_time.set i f.reach_time }
          f (nodeIdx nrids r)) (i+1)

/-- Model of `Swot.get_module_data` (Swot.py lines 62-92): when the glob listing is
empty the reader raises `ValueError('no swot files found')` instead of
returning the record. -/
def get_module_data (dir : List (Int × SwotFile)) (rids nrids : List Int) :
    Except String SwotDict :=
  let d := create_data_dict rids.length nrids.length
  if dir.length ≠ 0 then
    .ok (read_loop dir nrids rids d 0)
  else
    .error "no swot files found"

end Swot

/-- A SIC4DVar per-reach file `{reach_id}_sic4dvar.nc` as read by
`Sic4dvar.get_module_data` (Sic4dvar.py lines 80-88): reach scalars, two
per-time-step discharges, and ragged per-node `half_width` / `elevation`
rows. -/
structure SvFile where
  A0 : V
  n : V
  Qalgo5 : List V
  Qalgo31 : List V
  half_width : List (List V)
  elevation : List (List V)
deriving DecidableEq, Repr

/-- The in-memory SIC4DVar record (`sv_dict`), including the companion
`node_id` index array initialised to zeros (`np.zeros`, Sic4dvar.py line
110). -/
structure SvDict where
  nt : Nat
  A0 : List V
  n : List V
  Qalgo5 : List (List V)
  Qalgo31 : List (List V)
  half_width : List (List V)
  elevation : List (List V)
  node_id : List Int
deriving DecidableEq, Repr

namespace Sic4dvar

/-- Model of `Sic4dvar.create_data_dict` (Sic4dvar.py lines 93-119): reach arrays
pre-filled with NaN, per-node object cells pre-filled with the one-element
payload `[nan]`, and `node_id` zeros. -/
def create_data_dict (nr nn nt : Nat) : SvDict :=
  { nt := nt
    A0 := List.replicate nr V.nan
    n := List.replicate nr V.nan
    Qalgo5 := List.replicate nr (List.replicate nt V.nan)
    Qalgo31 := List.replicate nr (List.replicate nt V.nan)
    half_width := List.replicate nn [V.nan]
    elevation := List.replicate nn [V.nan]
    node_id := List.replicate nn 0 }

/-- Model of `Sic4dvar.__insert_nx` (Sic4dvar.py lines 136-175): write the file's
ragged per-node rows at the reach's node positions `idx`; for reach
`77444000061` the topology has two extra trailing nodes with no data, which
are set to an all-NaN row of the file's row size; for reach `77444000073`
the topology's leading node has no data and gets the all-NaN row; all other
reaches get the rows one-to-one. -/
def insert_nx (rid : Int) (idx : List Nat) (rows : List (List V))
    (cells : List (List V)) : List (List V) :=
  if rid = 77444000061 then
    (idx.drop (idx.length - 2)).foldl
      (fun c i => c.set i (List.replicate (rows.headD []).length V.nan))
      (writeAt cells (idx.take (idx.length - 2)) rows)
  else if rid = 77444000073 then
    match idx.head? with
    | some j =>
      (writeAt cells (idx.drop 1) rows).set j
        (List.replicate (rows.headD []).length V.nan)
    | none => writeAt cells (idx.drop 1) rows
  else
    writeAt cells idx rows

/-- The per-reach writes of `Sic4dvar.get_module_data` (Sic4dvar.py lines
80-88): scalars and discharges at the reach index, ragged rows via
`__insert_nx`, and the companion `node_id` mask assignment. -/
def insertReach (d : SvDict) (i : Nat) (r : Int) (nrids nids : List Int)
    (f : SvFile) : SvDict :=
  { d with
    A0 := d.A0.set i f.A0
    n := d.n.set i f.n
    Qalgo5 := d.Qalgo5.set i f.Qalgo5
    Qalgo31 := d.Qalgo31.set i f.Qalgo31
    half_width := insert_nx r (nodeIdx nrids r) f.half_width d.half_width
    elevation := insert_nx r (nodeIdx nrids r) f.elevation d.elevation
    node_id := maskFill d.node_id nrids nids r }

/-- The extraction loop of `Sic4dvar.get_module_data` (Sic4dvar.py lines
76-90). -/
def read_loop (dir : List (Int × SvFile)) (nrids nids : List Int)
    (rids : List Int) (d : SvDict) (i : Nat) : SvDict :=
  match rids with
  | [] => d
  | r :: rest =>
    match List.lookup r dir with
    | none => read_loop dir nrids nids rest d (i+1)
    | some f => read_loop dir nrids nids rest (insertReach d i r nrids nids f) (i+1)

/-- Model of `Sic4dvar.get_module_data` (Sic4dvar.py lines 55-91): the attribute read
`self.get_nc_attrs(sv_dir / sv_files[0], sv_dict)` happens before the
`len(sv_files) != 0` guard, so an empty module directory raises an
IndexError instead of returning the record. -/
def get_module_data (dir : List (Int × SvFile)) (rids nrids nids : List Int)
    (nt : Nat) : Except String SvDict :=
  let d := create_data_dict rids.length nrids.length nt
  match dir with
  | [] => .error "IndexError: list index out of range"
  | _ :: _ => .ok (read_loop dir nrids nids rids d 0)

end Sic4dvar

/-- One algorithm sub-group of a MOI per-reach file `{reach_id}_integrator.nc`
(Moi.py lines 77-114): a per-time-step discharge plus reach scalars; the
two scalar slots `s1`/`s2` (and `s3` where present) stand for the
sub-group's named scalars in source order (geobam: `a0`,`n`; hivdi:
`Abar`,`alpha`,`beta`; metroman: `Abar`,`na`,`x1`; momma: `B`,`H`,`Save`;
sad and sic4dvar: `a0`,`n`). -/
structure MoiFileAlgo where
  q : List V
  s1 : V
  s2 : V
  s3 : V
  qbar_reachScale : V
  qbar_basinScale : V
deriving DecidableEq, Repr

/-- A MOI per-reach result file: one sub-record per algorithm group. -/
structure MoiFile where
  geobam : MoiFileAlgo
  hivdi : MoiFileAlgo
  metroman : MoiFileAlgo
  momma : MoiFileAlgo
  sad : MoiFileAlgo
  sic4dvar : MoiFileAlgo
deriving DecidableEq, Repr

/-- One algorithm sub-group of the in-memory MOI record. -/
structure MoiDictAlgo where
  q : List (List V)
  s1 : List V
  s2 : List V
  s3 : List V
  qbar_reachScale : List V
  qbar_basinScale : List V
deriving DecidableEq, Repr

/-- The in-memory MOI record (`moi_dict`, Moi.py lines 120-221). -/
structure MoiDict where
  nt : Nat
  geobam : MoiDictAlgo
  hivdi : MoiDictAlgo
  metroman : MoiDictAlgo
  momma : MoiDictAlgo
  sad : MoiDictAlgo
  sic4dvar : MoiDictAlgo
deriving DecidableEq, Repr

namespace Moi

/-- One NaN-pre-filled algorithm sub-group of `Moi.create_data_dict`. -/
def createAlgo (nr nt : Nat) : MoiDictAlgo :=
  { q := List.replicate nr (List.replicate nt V.nan)
    s1 := List.replicate nr V.nan
    s2 := List.replicate nr V.nan
    s3 := List.replicate nr V.nan
    qbar_reachScale := List.replicate nr V.nan
    qbar_basinScale := List.replicate nr V.nan }

/-- Model of `Moi.create_data_dict` (Moi.py lines 120-221): NaN-pre-filled arrays
sized to the topology for every algorithm sub-group. -/
def create_data_dict (nr nt : Nat) : MoiDict :=
  { nt := nt
    geobam := createAlgo nr nt
    hivdi := createAlgo nr nt
    metroman := createAlgo nr nt
    momma := createAlgo nr nt
    sad := createAlgo nr nt
    sic4dvar := createAlgo nr nt }

/-- The per-reach writes of one sub-group (Moi.py lines 77-114). -/
def insertAlgo (a : MoiDictAlgo) (i : Nat) (f : MoiFileAlgo) : MoiDictAlgo :=
  { q := a.q.set i f.q
    s1 := a.s1.set i f.s1
    s2 := a.s2.set i f.s2
    s3 := a.s3.set i f.s3
    qbar_reachScale := a.qbar_reachScale.set i f.qbar_reachScale
    qbar_basinScale := a.qbar_basinScale.set i f.qbar_basinScale }

/-- The extraction loop of `Moi.get_module_data` (Moi.py lines 72-117). -/
def read_loop (dir : List (Int × MoiFile)) (rids : List Int) (d : MoiDict)
    (i : Nat) : MoiDict :=
  match rids with
  | [] => d
  | r :: rest =>
    match List.lookup r dir with
    | none => read_loop dir rest d (i+1)
    | some f =>
      read_loop dir rest
        { d with
          geobam := insertAlgo d.geobam i f.geobam
          hivdi := insertAlgo d.hivdi i f.hivdi
          metroman := insertAlgo d.metroman i f.metroman
          momma := insertAlgo d.momma i f.momma
          sad := insertAlgo d.sad i f.sad
          sic4dvar := insertAlgo d.sic4dvar i f.sic4dvar } (i+1)

/-- Model of `Moi.get_module_data` (Moi.py lines 52-118): the attribute read
`self.get_nc_attrs(moi_dir / moi_files[0], moi_dict)` happens before the
`len(moi_files) != 0` guard, so an empty module directory raises an
IndexError instead of returning the record. -/
def get_module_data (dir : List (Int × MoiFile)) (rids : List Int) (nt : Nat) :
    Except String MoiDict :=
  let d := create_data_dict rids.length nt
  match dir with
  | [] => .error "IndexError: list index out of range"
  | _ :: _ => .ok (read_loop dir rids d 0)

end Moi

/-- Counterexample for C5: with an empty `swot` result directory,
`Swot.get_module_data` raises `ValueError('no swot files found')` instead of
returning a complete all-sentinel record: the claimed per-module recovery
does not hold for every module. -/
theorem swot_empty_directory_raises :
    Swot.get_module_data [] [10, 20, 30] [100, 101] =
      .error "no swot files found" := rfl

/-- C5 (amended): behavior on an empty or absent module result directory is
module-specific: HiVDI still returns the complete all-sentinel record and
its group is written with all-sentinel content, but SWOT raises
`ValueError('no swot files found')`, and SIC4DVar and MOI read attributes
from `files[0]` before checking emptiness, so they raise an IndexError. -/
theorem empty_directory_per_module (rids nrids nids : List Int) (nt : Nat) :
    (Hivdi.get_module_data [] rids nt = .ok (Hivdi.create_data_dict rids.length nt) ∧
      (Hivdi.append_module_data (Hivdi.create_data_dict rids.length nt)).A0 =
        List.replicate rids.length (V.num (FILL .f8).q) ∧
      (Hivdi.append_module_data (Hivdi.create_data_dict rids.length nt)).Q =
        List.replicate rids.length (List.replicate nt (V.num (FILL .f8).q))) ∧
    Swot.get_module_data [] rids nrids = .error "no swot files found" ∧
    Sic4dvar.get_module_data [] rids nrids nids nt =
      .error "IndexError: list index out of range" ∧
    Moi.get_module_data [] rids nt = .error "IndexError: list index out of range" := by
  refine ⟨⟨rfl, ?_, ?_⟩, ?_, rfl, rfl⟩
  · show writeVarData .f8 (List.replicate rids.length V.nan) = _
    rw [writeVarData, if_pos (Or.inl rfl), List.map_replicate]
    rfl
  · show writeVarData2 .f8 (List.replicate rids.length (List.replicate nt V.nan)) = _
    rw [writeVarData2, if_pos (Or.inl rfl), List.map_replicate, List.map_replicate]
    rfl
  · rw [Swot.get_module_data]
    rfl

/-- Witness for C5 (amended): the per-module empty-directory behavior at a
concrete three-reach topology. -/
theorem empty_directory_per_module_witness :
    (Hivdi.get_module_data [] [10, 20, 30] 2 =
        .ok (Hivdi.create_data_dict ([10, 20, 30] : List Int).length 2) ∧
      (Hivdi.append_module_data (Hivdi.create_data_dict ([10, 20, 30] : List Int).length 2)).A0 =
        List.replicate ([10, 20, 30] : List Int).length (V.num (FILL .f8).q) ∧
      (Hivdi.append_module_data (Hivdi.create_data_dict ([10, 20, 30] : List Int).length 2)).Q =
        List.replicate ([10, 20, 30] : List Int).length
          (List.replicate 2 (V.num (FILL .f8).q))) ∧
    Swot.get_module_data [] [10, 20, 30] [100, 101] = .error "no swot files found" ∧
    Sic4dvar.get_module_data [] [10, 20, 30] [100, 101] [1000, 1001] 2 =
      .error "IndexError: list index out of range" ∧
    Moi.get_module_data [] [10, 20, 30] 2 =
      .error "IndexError: list index out of range" :=
  empty_directory_per_module [10, 20, 30] [100, 101] [1000, 1001] 2

theorem writeAt_cons {α : Type} (cells : List α) (i : Nat) (is : List Nat)
    (row : α) (rs : List α) :
    writeAt cells (i :: is) (row :: rs) = writeAt (cells.set i row) is rs := rfl

theorem writeAt_nil_idx {α : Type} (cells rows : List α) :
    writeAt cells [] rows = cells := by
  cases rows <;> rfl

theorem writeAt_length {α : Type} :
    ∀ (idx : List Nat) (rows cells : List α),
    (writeAt cells idx rows).length = cells.length := by
  intro idx
  induction idx with
  | nil => intro rows cells; rw [writeAt_nil_idx]
  | cons i is ih =>
    intro rows cells
    cases rows with
    | nil => rfl
    | cons row rs => rw [writeAt_cons, ih, List.length_set]

theorem writeAt_getD_not_mem {α : Type} (d : α) :
    ∀ (idx : List Nat) (rows cells : List α) (k : Nat), k ∉ idx →
    (writeAt cells idx rows).getD k d = cells.getD k d := by
  intro idx
  induction idx with
  | nil => intro rows cells k _; rw [writeAt_nil_idx]
  | cons i is ih =>
    intro rows cells k hk
    cases rows with
    | nil => rfl
    | cons row rs =>
      have hik : i ≠ k := by
        intro h
        exact hk (by rw [← h]; exact List.mem_cons_self i is)
      rw [writeAt_cons, ih rs _ k (fun h => hk (List.mem_cons_of_mem i h))]
      rw [List.getD_eq_getElem?_getD, List.getD_eq_getElem?_getD,
        List.getElem?_set_ne hik]

theorem getD_set_self {α : Type} (cells : List α) (i : Nat) (x d : α)
    (h : i < cells.length) : (cells.set i x).getD i d = x := by
  rw [List.getD_eq_getElem?_getD, List.getElem?_set_self h]
  rfl

theorem gather_set_not_mem {α : Type} (cells : List α) (j : Nat) (x d : α)
    (idx : List Nat) (h : j ∉ idx) :
    gather (cells.set j x) d idx = gather cells d idx := by
  apply List.map_congr_left
  intro k hk
  have hjk : j ≠ k := by
    intro he
    exact h (by rw [he]; exact hk)
  rw [List.getD_eq_getElem?_getD, List.getD_eq_getElem?_getD,
    List.getElem?_set_ne hjk]

/-- Writing values at pairwise-distinct in-range positions and reading the
same positions back yields the values in order. -/
theorem gather_writeAt {α : Type} (d : α) :
    ∀ (idx : List Nat) (rows cells : List α), idx.Nodup →
    rows.length = idx.length → (∀ i ∈ idx, i < cells.length) →
    gather (writeAt cells idx rows) d idx = rows := by
  intro idx
  induction idx with
  | nil =>
    intro rows cells _ hlen _
    have hrows : rows = [] := List.length_eq_zero.mp (by simpa using hlen)
    subst hrows
    rfl
  | cons i is ih =>
    intro rows cells hnd hlen hbound
    cases rows with
    | nil => simp at hlen
    | cons row rs =>
      rw [writeAt_cons]
      have hni : i ∉ is := (List.nodup_cons.mp hnd).1
      show (writeAt (cells.set i row) is rs).getD i d ::
        gather (writeAt (cells.set i row) is rs) d is = row :: rs
      rw [writeAt_getD_not_mem d is rs _ i hni,
        getD_set_self cells i row d (hbound i (List.mem_cons_self i is))]
      rw [ih rs (cells.set i row) (List.nodup_cons.mp hnd).2 (by simpa using hlen)
        (fun k hk => by rw [List.length_set]; exact hbound k (List.mem_cons_of_mem i hk))]

theorem nodeIdx_nodup (nrids : List Int) (r : Int) : (nodeIdx nrids r).Nodup :=
  (List.nodup_range _).filter _

theorem nodeIdx_lt (nrids : List Int) (r : Int) :
    ∀ i ∈ nodeIdx nrids r, i < nrids.length := by
  intro i hi
  have := List.mem_filter.mp hi
  exact List.mem_range.mp this.1

namespace GeoBam

/-- Model of `GeoBam.__insert_nx` (GeoBam.py lines 346-377) for one chain array: the
reach's node positions `np.where(self.sos_nrids == rid)` receive the file's
chain data, padded with two trailing NaNs for reach `77444000061`
(`np.append(..., [np.nan, np.nan])`) and one leading NaN for reach
`77444000073` (`np.insert(..., 0, np.nan)`). -/
def insert_nx (rid : Int) (nrids : List Int) (arr data : List V) : List V :=
  if rid = 77444000061 then
    writeAt arr (nodeIdx nrids rid) (data ++ [V.nan, V.nan])
  else if rid = 77444000073 then
    writeAt arr (nodeIdx nrids rid) (V.nan :: data)
  else
    writeAt arr (nodeIdx nrids rid) data

end GeoBam

/-- C3: For the two enumerated mismatch reaches, the per-node result written
by the reader has length exactly the topology's node count for the reach:
reach `77444000061` (two extra trailing topology nodes) gets its real
entries in order followed by two NaN pad rows, and reach `77444000073` (one
missing leading topology node) gets one NaN pad row followed by its real
entries in order — in `GeoBam.__insert_nx` (flat chain arrays, NaN scalars)
and in `Sic4dvar.__insert_nx` (ragged per-node rows, all-NaN rows of the
file's row size). -/
theorem node_count_mismatch_exception :
    (∀ (nrids : List Int) (arr data : List V),
      arr.length = nrids.length →
      (nodeIdx nrids 77444000061).length = data.length + 2 →
      gather (GeoBam.insert_nx 77444000061 nrids arr data) V.nan
          (nodeIdx nrids 77444000061) = data ++ [V.nan, V.nan] ∧
      (data ++ [V.nan, V.nan]).length = (nodeIdx nrids 77444000061).length) ∧
    (∀ (nrids : List Int) (arr data : List V),
      arr.length = nrids.length →
      (nodeIdx nrids 77444000073).length = data.length + 1 →
      gather (GeoBam.insert_nx 77444000073 nrids arr data) V.nan
          (nodeIdx nrids 77444000073) = V.nan :: data ∧
      (V.nan :: data).length = (nodeIdx nrids 77444000073).length) ∧
    (∀ (idx : List Nat) (rows cells : List (List V)),
      idx.Nodup → (∀ i ∈ idx, i < cells.length) →
      idx.length = rows.length + 2 →
      gather (Sic4dvar.insert_nx 77444000061 idx rows cells) [] idx =
        rows ++ [List.replicate (rows.headD []).length V.nan,
                 List.replicate (rows.headD []).length V.nan]) ∧
    (∀ (idx : List Nat) (rows cells : List (List V)),
      idx.Nodup → (∀ i ∈ idx, i < cells.length) →
      idx.length = rows.length + 1 →
      gather (Sic4dvar.insert_nx 77444000073 idx rows cells) [] idx =
        List.replicate (rows.headD []).length V.nan :: rows) := by
  refine ⟨?_, ?_, ?_, ?_⟩
  · intro nrids arr data harr hcount
    have hmain : gather (writeAt arr (nodeIdx nrids 77444000061) (data ++ [V.nan, V.nan]))
        V.nan (nodeIdx nrids 77444000061) = data ++ [V.nan, V.nan] :=
      gather_writeAt V.nan _ _ arr (nodeIdx_nodup nrids _)
        (by simp [hcount]) (fun i hi => by rw [harr]; exact nodeIdx_lt nrids _ i hi)
    refine ⟨?_, by simp [hcount]⟩
    rw [GeoBam.insert_nx, if_pos rfl]
    exact hmain
  · intro nrids arr data harr hcount
    have hmain : gather (writeAt arr (nodeIdx nrids 77444000073) (V.nan :: data))
        V.nan (nodeIdx nrids 77444000073) = V.nan :: data :=
      gather_writeAt V.nan _ _ arr (nodeIdx_nodup nrids _)
        (by simp [hcount]) (fun i hi => by rw [harr]; exact nodeIdx_lt nrids _ i hi)
    refine ⟨?_, by simp [hcount]⟩
    rw [GeoBam.insert_nx, if_neg (by decide), if_pos rfl]
    exact hmain
  · intro idx rows cells hnd hbound hlen
    have htd := List.take_append_drop (idx.length - 2) idx
    have hdroplen : (idx.drop (idx.length - 2)).length = 2 := by
      rw [List.length_drop]; omega
    obtain ⟨j, k, hjk⟩ := List.length_eq_two.mp hdroplen
    have htakelen : (idx.take (idx.length - 2)).length = rows.length := by
      rw [List.length_take]; omega
    have hnd' : (idx.take (idx.length - 2) ++ [j, k]).Nodup := by
      rw [← hjk, htd]; exact hnd
    have hdisj := List.disjoint_of_nodup_append hnd'
    have hjtake : j ∉ idx.take (idx.length - 2) := fun hj => hdisj hj (by simp)
    have hktake : k ∉ idx.take (idx.length - 2) := fun hk => hdisj hk (by simp)
    have hjk_ne : j ≠ k := by
      have := (List.nodup_append.mp hnd').2.1
      simpa using this
    have hjlt : j < cells.length := hbound j (by rw [← htd, hjk]; simp)
    have hklt : k < cells.length := hbound k (by rw [← htd, hjk]; simp)
    rw [Sic4dvar.insert_nx, if_pos rfl, hjk]
    set nr := List.replicate (rows.headD []).length V.nan with hnr
    show gather (((writeAt cells (idx.take (idx.length - 2)) rows).set j nr).set k nr)
      [] idx = rows ++ [nr, nr]
    set c := ((writeAt cells (idx.take (idx.length - 2)) rows).set j nr).set k nr with hc
    have htake_part : gather c [] (idx.take (idx.length - 2)) = rows := by
      rw [hc, gather_set_not_mem _ k _ _ _ hktake, gather_set_not_mem _ j _ _ _ hjtake]
      exact gather_writeAt [] _ rows cells
        ((List.nodup_append.mp hnd').1) htakelen.symm
        (fun i hi => hbound i (List.mem_of_mem_take hi))
    have hj_part : c.getD j [] = nr := by
      rw [hc, List.getD_eq_getElem?_getD, List.getElem?_set_ne hjk_ne.symm,
        List.getElem?_set_self (by rw [writeAt_length]; exact hjlt)]
      rfl
    have hk_part : c.getD k [] = nr := by
      rw [hc, getD_set_self _ k _ _ (by rw [List.length_set, writeAt_length]; exact hklt)]
    conv_lhs => rw [← htd, hjk]
    rw [gather, List.map_append]
    show gather c [] (idx.take (idx.length - 2)) ++ [c.getD j [], c.getD k []] =
      rows ++ [nr, nr]
    rw [htake_part, hj_part, hk_part]
  · intro idx rows cells hnd hbound hlen
    match idx, hnd, hbound, hlen with
    | i0 :: tail, hnd, hbound, hlen =>
      have hi0tail : i0 ∉ tail := (List.nodup_cons.mp hnd).1
      have hi0lt : i0 < cells.length := hbound i0 (List.mem_cons_self _ _)
      rw [Sic4dvar.insert_nx, if_neg (by decide), if_pos rfl]
      show gather ((writeAt cells tail rows).set i0
        (List.replicate (rows.headD []).length V.nan)) [] (i0 :: tail) = _
      show ((writeAt cells tail rows).set i0
          (List.replicate (rows.headD []).length V.nan)).getD i0 [] ::
        gather ((writeAt cells tail rows).set i0
          (List.replicate (rows.headD []).length V.nan)) [] tail = _
      rw [getD_set_self _ i0 _ _ (by rw [writeAt_length]; exact hi0lt),
        gather_set_not_mem _ i0 _ _ _ hi0tail,
        gather_writeAt [] tail rows cells (List.nodup_cons.mp hnd).2
          (by simp at hlen; omega)
          (fun i hi => hbound i (List.mem_cons_of_mem i0 hi))]

/-- Witness for C3: a concrete topology where reach `77444000061` owns node
positions `0,1,2,3` with two data rows and reach `77444000073` owns
positions `0,1` with one data row. -/
theorem node_count_mismatch_exception_witness :
    gather (GeoBam.insert_nx 77444000061 [77444000061, 77444000061, 77444000061, 77444000061]
        [V.num 0, V.num 0, V.num 0, V.num 0] [V.num 1, V.num 2]) V.nan
      (nodeIdx [77444000061, 77444000061, 77444000061, 77444000061] 77444000061) =
      [V.num 1, V.num 2, V.nan, V.nan] ∧
    gather (GeoBam.insert_nx 77444000073 [77444000073, 77444000073]
        [V.num 0, V.num 0] [V.num 9]) V.nan
      (nodeIdx [77444000073, 77444000073] 77444000073) = [V.nan, V.num 9] ∧
    gather (Sic4dvar.insert_nx 77444000061 [0, 1, 2] [[V.num 5]]
        [[V.num 0], [V.num 0], [V.num 0]]) [] [0, 1, 2] =
      [[V.num 5], [V.nan], [V.nan]] := by
  refine ⟨?_, ?_, ?_⟩
  · have h := (node_count_mismatch_exception.1)
      [77444000061, 77444000061, 77444000061, 77444000061]
      [V.num 0, V.num 0, V.num 0, V.num 0] [V.num 1, V.num 2] (by decide) (by decide)
    exact h.1
  · have h := (node_count_mismatch_exception.2.1)
      [77444000073, 77444000073] [V.num 0, V.num 0] [V.num 9] (by decide) (by decide)
    exact h.1
  · have h := (node_count_mismatch_exception.2.2.1)
      [0, 1, 2] [[V.num 5]] [[V.num 0], [V.num 0], [V.num 0]]
      (by decide) (by decide) (by decide)
    exact h

/-- Model of `np.where(data_dict["node_id"] != 0)` (Sic4dvar.py line 196): the
positions of the topology nodes whose companion node id was set, i.e. the
nodes that have ragged data. -/
def whereNonzero (nodeId : List Int) : List Nat :=
  (List.range nodeId.length).filter (fun i => nodeId.getD i 0 != 0)

namespace Sic4dvar

/-- Model of `sic4dvar_node_id` as written by `append_module_data` (Sic4dvar.py lines
198-200): `data_dict["node_id"][indexes]`. -/
def written_node_id (d : SvDict) : List Int :=
  gather d.node_id 0 (whereNonzero d.node_id)

/-- Model of `sic4dvar_reach_id` as written by `append_module_data` (Sic4dvar.py
lines 202-203): `self.sos_nrids[indexes]`. -/
def written_reach_id (d : SvDict) (nrids : List Int) : List Int :=
  gather nrids 0 (whereNonzero d.node_id)

/-- Model of `half_width` as written by `append_module_data` (Sic4dvar.py lines
205-207): `data_dict["half_width"][indexes]`, one independent
variable-length payload per selected node. -/
def written_half_width (d : SvDict) : List (List V) :=
  gather d.half_width [] (whereNonzero d.node_id)

/-- Model of `elevation` as written by `append_module_data` (Sic4dvar.py lines
209-210). -/
def written_elevation (d : SvDict) : List (List V) :=
  gather d.elevation [] (whereNonzero d.node_id)

theorem maskFill_length :
    ∀ (a nrs nis : List Int) (r : Int), nrs.length = a.length →
    nis.length = a.length → (maskFill a nrs nis r).length = a.length := by
  intro a
  induction a with
  | nil => intro nrs nis r _ _; cases nrs <;> cases nis <;> rfl
  | cons x as ih =>
    intro nrs nis r h1 h2
    cases nrs with
    | nil => simp at h1
    | cons nr nrs' =>
      cases nis with
      | nil => simp at h2
      | cons ni nis' =>
        show (maskFill (x :: as) (nr :: nrs') (ni :: nis') r).length = _
        rw [maskFill]
        simp only [List.length_cons]
        rw [ih nrs' nis' r (by simpa using h1) (by simpa using h2)]

theorem maskFill_getD :
    ∀ (a nrs nis : List Int) (r : Int) (p : Nat), nrs.length = a.length →
    nis.length = a.length → p < a.length →
    (maskFill a nrs nis r).getD p 0 =
      if nrs.getD p 0 = r then nis.getD p 0 else a.getD p 0 := by
  intro a
  induction a with
  | nil => intro nrs nis r p _ _ hp; simp at hp
  | cons x as ih =>
    intro nrs nis r p h1 h2 hp
    cases nrs with
    | nil => simp at h1
    | cons nr nrs' =>
      cases nis with
      | nil => simp at h2
      | cons ni nis' =>
        rw [maskFill]
        match p with
        | 0 => rfl
        | p' + 1 =>
          show (maskFill as nrs' nis' r).getD p' 0 = _
          exact ih nrs' nis' r p' (by simpa using h1) (by simpa using h2)
            (by simpa using hp)

theorem read_loop_node_id (dir : List (Int × SvFile)) (nrids nids : List Int)
    (hnn : nrids.length = nids.length) :
    ∀ (rids : List Int) (d : SvDict) (i : Nat),
    d.node_id.length = nids.length →
    (read_loop dir nrids nids rids d i).node_id.length = nids.length ∧
    (∀ p, p < nids.length →
      (read_loop dir nrids nids rids d i).node_id.getD p 0 =
        if nrids.getD p 0 ∈ rids ∧ (List.lookup (nrids.getD p 0) dir).isSome
        then nids.getD p 0 else d.node_id.getD p 0) := by
  intro rids
  induction rids with
  | nil =>
    intro d i hd
    refine ⟨hd, fun p hp => ?_⟩
    simp only [List.not_mem_nil, false_and, if_neg]
    rfl
  | cons r rest ih =>
    intro d i hd
    rw [read_loop]
    rcases hlk : List.lookup r dir with _ | f
    · dsimp only
      obtain ⟨hl, hv⟩ := ih d (i+1) hd
      refine ⟨hl, fun p hp => ?_⟩
      rw [hv p hp]
      by_cases hpr : nrids.getD p 0 = r
      · rw [hpr, hlk]
        simp
      · have hiff : (nrids.getD p 0 ∈ rest) ↔ (nrids.getD p 0 ∈ r :: rest) := by
          rw [List.mem_cons]
          exact ⟨fun h => Or.inr h, fun h => h.resolve_left hpr⟩
        exact if_congr (and_congr_left' hiff) rfl rfl
    · dsimp only
      have hmask_len : (insertReach d i r nrids nids f).node_id.length = nids.length := by
        show (maskFill d.node_id nrids nids r).length = nids.length
        rw [maskFill_length d.node_id nrids nids r (by rw [hd, hnn])
          (by rw [hd])]
        exact hd
      obtain ⟨hl, hv⟩ := ih (insertReach d i r nrids nids f) (i+1) hmask_len
      refine ⟨hl, fun p hp => ?_⟩
      rw [hv p hp]
      have hmget : (insertReach d i r nrids nids f).node_id.getD p 0 =
          if nrids.getD p 0 = r then nids.getD p 0 else d.node_id.getD p 0 := by
        show (maskFill d.node_id nrids nids r).getD p 0 = _
        exact maskFill_getD d.node_id nrids nids r p (by rw [hd, hnn]) (by rw [hd])
          (by rw [hd]; exact hp)
      rw [hmget]
      by_cases hpr : nrids.getD p 0 = r
      · rw [hpr, hlk]
        by_cases hmem : r ∈ rest <;> simp [hmem]
      · rw [if_neg hpr]
        have hiff : (nrids.getD p 0 ∈ rest) ↔ (nrids.getD p 0 ∈ r :: rest) := by
          rw [List.mem_cons]
          exact ⟨fun h => Or.inr h, fun h => h.resolve_left hpr⟩
        exact if_congr (and_congr_left' hiff) rfl rfl

theorem whereNonzero_mem (nodeId : List Int) (i : Nat) :
    i ∈ whereNonzero nodeId ↔ i < nodeId.length ∧ nodeId.getD i 0 ≠ 0 := by
  constructor
  · intro hi
    have h := List.mem_filter.mp hi
    exact ⟨List.mem_range.mp h.1, by simpa using h.2⟩
  · intro ⟨h1, h2⟩
    exact List.mem_filter.mpr ⟨List.mem_range.mpr h1, by simpa using h2⟩

/-- C7: the Sic4dvar ragged writer stores each `half_width`/`elevation`
element as an independent variable-length payload (the k-th written payload
is exactly the k-th selected node's stored payload, unpadded), together with
companion `sic4dvar_node_id`/`sic4dvar_reach_id` arrays over exactly the
subset of topology nodes whose `node_id` was set, and the k-th ragged entry,
k-th node id and k-th reach id all come from the same topology node index;
moreover, after the extraction loop, `node_id` is nonzero at a node exactly
when that node's reach is in the topology and has a result file. -/
theorem sic4dvar_ragged_companion_index :
    (∀ (d : SvDict) (nrids : List Int),
      (Sic4dvar.written_node_id d).length = (whereNonzero d.node_id).length ∧
      (Sic4dvar.written_reach_id d nrids).length = (whereNonzero d.node_id).length ∧
      (Sic4dvar.written_half_width d).length = (whereNonzero d.node_id).length ∧
      (Sic4dvar.written_elevation d).length = (whereNonzero d.node_id).length ∧
      (∀ (k : Nat) (hk : k < (whereNonzero d.node_id).length),
        (Sic4dvar.written_node_id d)[k]? =
          some (d.node_id.getD ((whereNonzero d.node_id).get ⟨k, hk⟩) 0) ∧
        (Sic4dvar.written_reach_id d nrids)[k]? =
          some (nrids.getD ((whereNonzero d.node_id).get ⟨k, hk⟩) 0) ∧
        (Sic4dvar.written_half_width d)[k]? =
          some (d.half_width.getD ((whereNonzero d.node_id).get ⟨k, hk⟩) []) ∧
        (Sic4dvar.written_elevation d)[k]? =
          some (d.elevation.getD ((whereNonzero d.node_id).get ⟨k, hk⟩) [])) ∧
      (∀ i, i ∈ whereNonzero d.node_id ↔
        i < d.node_id.length ∧ d.node_id.getD i 0 ≠ 0)) ∧
    (∀ (dir : List (Int × SvFile)) (rids nrids nids : List Int) (nt : Nat),
      nrids.length = nids.length →
      (∀ p, p < nids.length → nids.getD p 0 ≠ 0) →
      ∀ p, p < nids.length →
        ((Sic4dvar.read_loop dir nrids nids rids
            (Sic4dvar.create_data_dict rids.length nids.length nt) 0).node_id.getD p 0 ≠ 0
          ↔ (nrids.getD p 0 ∈ rids ∧ (List.lookup (nrids.getD p 0) dir).isSome))) := by
  constructor
  · intro d nrids
    refine ⟨by simp [Sic4dvar.written_node_id, gather],
      by simp [Sic4dvar.written_reach_id, gather],
      by simp [Sic4dvar.written_half_width, gather],
      by simp [Sic4dvar.written_elevation, gather],
      ?_, whereNonzero_mem d.node_id⟩
    intro k hk
    have hget : (whereNonzero d.node_id)[k]? =
        some ((whereNonzero d.node_id).get ⟨k, hk⟩) := by
      rw [List.getElem?_eq_getElem hk]
      rfl
    refine ⟨?_, ?_, ?_, ?_⟩
    · show (gather d.node_id 0 (whereNonzero d.node_id))[k]? = _
      rw [gather, List.getElem?_map, hget]
      rfl
    · show (gather nrids 0 (whereNonzero d.node_id))[k]? = _
      rw [gather, List.getElem?_map, hget]
      rfl
    · show (gather d.half_width [] (whereNonzero d.node_id))[k]? = _
      rw [gather, List.getElem?_map, hget]
      rfl
    · show (gather d.elevation [] (whereNonzero d.node_id))[k]? = _
      rw [gather, List.getElem?_map, hget]
      rfl
  · intro dir rids nrids nids nt hnn hnz p hp
    have hd : (Sic4dvar.create_data_dict rids.length nids.length nt).node_id.length =
        nids.length := by
      simp [Sic4dvar.create_data_dict]
    obtain ⟨_, hv⟩ := Sic4dvar.read_loop_node_id dir nrids nids hnn rids
      (Sic4dvar.create_data_dict rids.length nids.length nt) 0 hd
    rw [hv p hp]
    have hzero : (Sic4dvar.create_data_dict rids.length nids.length nt).node_id.getD p 0 = 0 := by
      show (List.replicate nids.length (0 : Int)).getD p 0 = 0
      rw [List.getD_eq_getElem?_getD, List.getElem?_replicate]
      split <;> rfl
    by_cases hcond : nrids.getD p 0 ∈ rids ∧ (List.lookup (nrids.getD p 0) dir).isSome
    · rw [if_pos hcond]
      exact iff_of_true (hnz p hp) hcond
    · rw [if_neg hcond, hzero]
      exact iff_of_false (by simp) hcond

/-- A concrete SIC4DVar result file with two ragged node rows. -/
def svExFile : SvFile :=
  { A0 := V.num 1, n := V.num 2, Qalgo5 := [], Qalgo31 := [],
    half_width := [[V.num 1], [V.num 2, V.num 3]],
    elevation := [[V.num 4], [V.num 5]] }

/-- A concrete extracted SIC4DVar record: nodes 0 and 1 have ragged data
(node ids 100, 101 set), node 2 does not. -/
def svExDict : SvDict :=
  { nt := 1, A0 := [], n := [], Qalgo5 := [], Qalgo31 := [],
    half_width := [[V.num 1], [V.num 2, V.num 3], [V.nan]],
    elevation := [[V.num 4], [V.num 5], [V.nan]],
    node_id := [100, 101, 0] }

/-- Witness for C7: a concrete two-reach topology with a SIC4DVar file only
for reach 7; nodes 0 and 1 (ids 100, 101) belong to reach 7 and get ragged
data, node 2 (id 102, reach 8) does not. -/
theorem sic4dvar_ragged_companion_index_witness :
    ((Sic4dvar.written_node_id svExDict).length =
      (whereNonzero svExDict.node_id).length) ∧
    ((Sic4dvar.read_loop [((7 : Int), svExFile)] [7, 7, 8] [100, 101, 102] [7, 8]
        (Sic4dvar.create_data_dict ([7, 8] : List Int).length 3 1) 0).node_id.getD 2 0 ≠ 0
      ↔ (([7, 7, 8] : List Int).getD 2 0 ∈ ([7, 8] : List Int) ∧
         (List.lookup (([7, 7, 8] : List Int).getD 2 0)
           [((7 : Int), svExFile)]).isSome)) := by
  constructor
  · exact ((sic4dvar_ragged_companion_index.1 svExDict [7, 7, 8])).1
  · exact sic4dvar_ragged_companion_index.2 [((7 : Int), svExFile)]
      [7, 8] [7, 7, 8] [100, 101, 102] 1 (by decide) (by decide) 2 (by decide)

end Sic4dvar

/-- File I/O events during a module's extraction loop. -/
inductive Ev where
  | fopen : Int → Ev
  | fread : Int → Ev
  | fclose : Int → Ev
deriving DecidableEq, Repr

/-- The file events of one loop iteration of `Hivdi.get_module_data`
(Hivdi.py lines 77-85) and `Momma.get_module_data` (Momma.py lines 77-123):
when the reach has a result file, `Dataset(...)` opens it, `nreads` field
extractions read it, and `.close()` closes it before the loop advances;
otherwise the iteration touches no file. -/
def reachEvents (present : Int → Bool) (nreads : Nat) (r : Int) : List Ev :=
  if present r then
    Ev.fopen r :: (List.replicate nreads (Ev.fread r) ++ [Ev.fclose r])
  else []

/-- The event trace of a whole extraction loop over the topology reaches
(`for s_rid in self.sos_rids`). -/
def extractTrace (present : Int → Bool) (nreads : Nat) : List Int → List Ev
  | [] => []
  | r :: rest => reachEvents present nreads r ++ extractTrace present nreads rest

/-- Event delta: +1 for an open, −1 for a close, 0 for a read. -/
def evDelta : Ev → Int
  | .fopen _ => 1
  | .fclose _ => -1
  | .fread _ => 0

/-- Number of result files held open after a sequence of events. -/
def openCount (t : List Ev) : Int := (t.map evDelta).sum

theorem openCount_append (a b : List Ev) :
    openCount (a ++ b) = openCount a + openCount b := by
  rw [openCount, List.map_append, List.sum_append]
  rfl

theorem openCount_replicate_fread (j : Nat) (r : Int) :
    openCount (List.replicate j (Ev.fread r)) = 0 := by
  induction j with
  | zero => rfl
  | succ j ih =>
    rw [List.replicate_succ]
    show evDelta (Ev.fread r) + openCount (List.replicate j (Ev.fread r)) = 0
    rw [ih]
    rfl

theorem openCount_reachEvents (present : Int → Bool) (nreads : Nat) (r : Int) :
    openCount (reachEvents present nreads r) = 0 := by
  rw [reachEvents]
  split
  · show openCount (Ev.fopen r :: (List.replicate nreads (Ev.fread r) ++ [Ev.fclose r])) = 0
    show evDelta (Ev.fopen r) +
      openCount (List.replicate nreads (Ev.fread r) ++ [Ev.fclose r]) = 0
    rw [openCount_append, openCount_replicate_fread]
    rfl
  · rfl

theorem openCount_take_reachEvents (present : Int → Bool) (nreads : Nat)
    (r : Int) (n : Nat) :
    0 ≤ openCount ((reachEvents present nreads r).take n) ∧
    openCount ((reachEvents present nreads r).take n) ≤ 1 := by
  rw [reachEvents]
  split
  · match n with
    | 0 => exact ⟨le_refl 0, by show openCount ([] : List Ev) ≤ 1; decide⟩
    | m + 1 =>
      rw [List.take_succ_cons]
      show 0 ≤ evDelta (Ev.fopen r) +
          openCount ((List.replicate nreads (Ev.fread r) ++ [Ev.fclose r]).take m) ∧
        evDelta (Ev.fopen r) +
          openCount ((List.replicate nreads (Ev.fread r) ++ [Ev.fclose r]).take m) ≤ 1
      rw [List.take_append_eq_append_take, openCount_append]
      have hrep : (List.replicate nreads (Ev.fread r)).take m =
          List.replicate (min m nreads) (Ev.fread r) := List.take_replicate _ _ _
      rw [hrep, openCount_replicate_fread]
      have hclose : ∀ (j : Nat), 0 ≤ openCount (([Ev.fclose r] : List Ev).take j) + 1 ∧
          openCount (([Ev.fclose r] : List Ev).take j) ≤ 0 := by
        intro j
        match j with
        | 0 => exact ⟨by show (0 : Int) ≤ openCount ([] : List Ev) + 1; decide, le_refl 0⟩
        | j' + 1 =>
          have : ([Ev.fclose r] : List Ev).take (j' + 1) = [Ev.fclose r] := by
            rw [List.take_succ_cons, List.take_nil]
          rw [this]
          norm_num [openCount, evDelta]
      obtain ⟨hc1, hc2⟩ := hclose (m - (List.replicate nreads (Ev.fread r)).length)
      constructor
      · show (0 : Int) ≤ 1 + (0 + _)
        omega
      · show (1 : Int) + (0 + _) ≤ 1
        omega
  · rw [List.take_nil]
    exact ⟨le_refl 0, by decide⟩

/-- C9: At every point during a Hivdi/Momma-style extraction, at most one
per-reach result file is open (every prefix of the loop's event trace has an
open count of 0 or 1), and at the end of the loop every file has been closed
(total open count 0): each file is opened, read and closed before the loop
advances to the next reach. -/
theorem extraction_one_file_open (present : Int → Bool) (nreads : Nat)
    (rids : List Int) :
    (∀ n : Nat, 0 ≤ openCount ((extractTrace present nreads rids).take n) ∧
      openCount ((extractTrace present nreads rids).take n) ≤ 1) ∧
    openCount (extractTrace present nreads rids) = 0 := by
  induction rids with
  | nil =>
    refine ⟨fun n => ?_, rfl⟩
    rw [extractTrace, List.take_nil]
    exact ⟨le_refl 0, by decide⟩
  | cons r rest ih =>
    constructor
    · intro n
      rw [extractTrace, List.take_append_eq_append_take, openCount_append]
      by_cases hn : n ≤ (reachEvents present nreads r).length
      · have hzero : n - (reachEvents present nreads r).length = 0 := by omega
        rw [hzero, List.take_zero]
        have := openCount_take_reachEvents present nreads r n
        show 0 ≤ _ + openCount [] ∧ _ + openCount [] ≤ 1
        show 0 ≤ _ + (0 : Int) ∧ _ + (0 : Int) ≤ 1
        omega
      · have hfull : (reachEvents present nreads r).take n = reachEvents present nreads r :=
          List.take_of_length_le (by omega)
        rw [hfull, openCount_reachEvents]
        have := ih.1 (n - (reachEvents present nreads r).length)
        omega
    · rw [extractTrace, openCount_append, openCount_reachEvents, ih.2]
      decide

/-- Python `str()` of a nonnegative integer, as its decimal digit sequence
(most significant digit first); `fuel` bounds the recursion depth. -/
def digitsAux : Nat → Nat → List Nat
  | 0, _ => []
  | fuel + 1, n => if n < 10 then [n] else digitsAux fuel (n / 10) ++ [n % 10]

/-- The decimal digit string of a nonnegative integer (`str(n)` in Python;
each entry is one character's digit value). -/
def digitsOf (n : Nat) : List Nat := digitsAux (n + 1) n

/-- Model of `int(s)` on a digit string. -/
def parseDigits (l : List Nat) : Nat := l.foldl (fun a d => a * 10 + d) 0

namespace Append

/-- Model of `Append.VERS_LENGTH` (both generations): the fixed version width. -/
def VERS_LENGTH : Nat := 4

/-- Model of `Append.create_new_version` of the earlier generation (src/src/Append.py
lines 100-113): copy the prior archive, then
`self.version = str(int(sos.version) + 1)` and
`sos.version = f"{''.join(['0'] * (self.VERS_LENGTH - len(version)))}{version}"` —
the version attribute is parsed, incremented and zero-padded back to 4
characters.  `prior` is the integer value of the prior file's version
attribute. -/
def create_new_version_src (prior : Nat) : List Nat :=
  List.replicate (VERS_LENGTH - (digitsOf (prior + 1)).length) 0 ++ digitsOf (prior + 1)

/-- Model of `Append.create_new_version` of the final generation (src/output/Append.py
lines 137-173): the new archive's global attribute is copied unchanged,
`result_sos.version = prior_sos.version`. -/
def create_new_version_output (priorVersion : List Nat) : List Nat :=
  priorVersion

/-- Model of `Upload.upload_data` (src/output/Upload.py lines 56-62): the S3 key
version is `str(int(sos_ds.version) + 1)` zero-padded to `VERS_LENGTH`,
computed from the finished archive's version attribute. -/
def upload_version (archiveVersion : Nat) : List Nat :=
  List.replicate (VERS_LENGTH - (digitsOf (archiveVersion + 1)).length) 0 ++
    digitsOf (archiveVersion + 1)

end Append

theorem parseDigits_append_singleton (l : List Nat) (d : Nat) :
    parseDigits (l ++ [d]) = parseDigits l * 10 + d := by
  rw [parseDigits, List.foldl_append]
  rfl

theorem parseDigits_digitsAux :
    ∀ (fuel n : Nat), n < fuel → parseDigits (digitsAux fuel n) = n := by
  intro fuel
  induction fuel with
  | zero => intro n hn; omega
  | succ fuel ih =>
    intro n hn
    rw [digitsAux]
    split
    · show parseDigits [n] = n
      show 0 * 10 + n = n
      omega
    · have hdiv : n / 10 < n := Nat.div_lt_self (by omega) (by omega)
      rw [parseDigits_append_singleton, ih (n / 10) (by omega)]
      omega

theorem digitsAux_length_le :
    ∀ (fuel n k : Nat), n < fuel → 0 < k → n < 10 ^ k →
    (digitsAux fuel n).length ≤ k := by
  intro fuel
  induction fuel with
  | zero => intro n k hn _ _; omega
  | succ fuel ih =>
    intro n k hn hk hnk
    rw [digitsAux]
    split
    · show 1 ≤ k
      omega
    · rename_i hn10
      have hk2 : 2 ≤ k := by
        by_contra h
        have : k = 1 := by omega
        rw [this] at hnk
        simp at hnk
        omega
      have hdiv : n / 10 < n := Nat.div_lt_self (by omega) (by omega)
      have hmain : n / 10 < 10 ^ (k - 1) := by
        rw [Nat.div_lt_iff_lt_mul (by omega)]
        have : (10 : Nat) ^ (k - 1) * 10 = 10 ^ k := by
          rw [← pow_succ]
          congr 1
          omega
        omega
      have := ih (n / 10) (k - 1) (by omega) (by omega) hmain
      rw [List.length_append]
      simp only [List.length_cons, List.length_nil]
      omega

/-- Counterexample for C4: in the final generation (src/output/Append.py),
creating the new archive from a prior whose version attribute is `0004`
leaves the new archive's version attribute at `0004`, not the claimed
`0005` (the earlier generation would produce `0005`). -/
theorem new_version_attribute_not_bumped :
    Append.create_new_version_output [0, 0, 0, 4] = [0, 0, 0, 4] ∧
    Append.create_new_version_src 4 = [0, 0, 0, 5] ∧
    ([0, 0, 0, 4] : List Nat) ≠ [0, 0, 0, 5] := by
  refine ⟨rfl, ?_, by decide⟩
  rfl

/-- C4 (amended): only the earlier generation's `create_new_version`
(src/src/Append.py) stamps the new archive's global version attribute with
N+1 zero-padded to 4 digits; the final generation (src/output/Append.py)
copies the prior version attribute unchanged, and the N+1 zero-padded
string is computed only by `Upload.upload_data` for the S3 destination
key. -/
theorem version_stamping (prior : Nat) (hp : prior + 1 ≤ 9999) :
    ((Append.create_new_version_src prior).length = 4 ∧
      parseDigits (Append.create_new_version_src prior) = prior + 1) ∧
    (∀ v : List Nat, Append.create_new_version_output v = v) ∧
    Append.upload_version prior = Append.create_new_version_src prior := by
  have hlen : (digitsOf (prior + 1)).length ≤ 4 :=
    digitsAux_length_le (prior + 2) (prior + 1) 4 (by omega) (by omega) (by norm_num; omega)
  refine ⟨⟨?_, ?_⟩, fun v => rfl, rfl⟩
  · rw [Append.create_new_version_src, List.length_append, List.length_replicate,
      Append.VERS_LENGTH]
    omega
  · rw [Append.create_new_version_src, parseDigits]
    have hzeros : ∀ (m : Nat) (l : List Nat),
        (List.replicate m 0 ++ l).foldl (fun a d => a * 10 + d) 0 =
          l.foldl (fun a d => a * 10 + d) 0 := by
      intro m
      induction m with
      | zero => intro l; rfl
      | succ m ihm =>
        intro l
        rw [List.replicate_succ, List.cons_append]
        show (List.replicate m 0 ++ l).foldl (fun a d => a * 10 + d) (0 * 10 + 0) = _
        exact ihm l
    rw [hzeros]
    exact parseDigits_digitsAux (prior + 2) (prior + 1) (by omega)

/-- Witness for C4 (amended): the version stamping applied at prior version 4. -/
theorem version_stamping_witness :
    ((Append.create_new_version_src 4).length = 4 ∧
      parseDigits (Append.create_new_version_src 4) = 5) ∧
    (∀ v : List Nat, Append.create_new_version_output v = v) ∧
    Append.upload_version 4 = Append.create_new_version_src 4 :=
  version_stamping 4 (by decide)

end SoS
